import Mathlib

set_option maxRecDepth 100000

/-!
Verification of the `ops` event-store core (shisya228/ops) against its
natural-language specification.

The Python source is shallowly embedded: JSON values (the payloads the
pipeline passes around as Python dicts/lists) become the inductive `Json`;
`json.dumps` becomes an executable serializer; `hashlib.sha256` is
implemented bit-for-bit over byte lists (`Nat` bytes, arithmetic mod 2^32);
the SQLite index and the canonical log become an explicit `Store` record,
and the fallible file/DB operations return `Except` values driven by an
explicit fault environment.  Definition names follow the Python symbols
(`event_hash`, `dedupe_key_from_draft`, `ingest_drafts`, ...).
-/

namespace Ops

/-- JSON values, the shape of the Python dicts/lists the pipeline moves
around.  Objects keep entry (insertion) order, exactly like Python dicts;
numbers are modelled as integers (the events the core builds carry only
integer numbers, e.g. `span.idx`). -/
inductive Json where
  | null
  | bool (b : Bool)
  | num (n : Int)
  | str (s : String)
  | arr (elems : List Json)
  | obj (entries : List (String × Json))
deriving Repr

namespace Json

/-- Structural equality test (Python `==` on parsed JSON values of the same
entry order). -/
def beq : Json → Json → Bool
  | .null, .null => true
  | .bool a, .bool b => a == b
  | .num a, .num b => a == b
  | .str a, .str b => a == b
  | .arr xs, .arr ys =>
    let rec beqList : List Json → List Json → Bool
      | [], [] => true
      | x :: xs, y :: ys => beq x y && beqList xs ys
      | _, _ => false
    beqList xs ys
  | .obj es, .obj fs =>
    let rec beqEntries : List (String × Json) → List (String × Json) → Bool
      | [], [] => true
      | e :: es, f :: fs => e.1 == f.1 && beq e.2 f.2 && beqEntries es fs
      | _, _ => false
    beqEntries es fs
  | _, _ => false

mutual
theorem beq_eq : ∀ a b : Json, beq a b = true → a = b
  | .null, .null, _ => rfl
  | .bool a, .bool b, h => by simpa [beq] using congrArg Json.bool (by simpa [beq] using h)
  | .num a, .num b, h => by
    have : a = b := by simpa [beq] using h
    simp [this]
  | .str a, .str b, h => by
    have : a = b := by simpa [beq] using h
    simp [this]
  | .arr xs, .arr ys, h => by
    have : xs = ys := beqList_eq xs ys (by simpa [beq] using h)
    simp [this]
  | .obj es, .obj fs, h => by
    have : es = fs := beqEntries_eq es fs (by simpa [beq] using h)
    simp [this]
  | .null, .bool _, h => by simp [beq] at h
  | .null, .num _, h => by simp [beq] at h
  | .null, .str _, h => by simp [beq] at h
  | .null, .arr _, h => by simp [beq] at h
  | .null, .obj _, h => by simp [beq] at h
  | .bool _, .null, h => by simp [beq] at h
  | .bool _, .num _, h => by simp [beq] at h
  | .bool _, .str _, h => by simp [beq] at h
  | .bool _, .arr _, h => by simp [beq] at h
  | .bool _, .obj _, h => by simp [beq] at h
  | .num _, .null, h => by simp [beq] at h
  | .num _, .bool _, h => by simp [beq] at h
  | .num _, .str _, h => by simp [beq] at h
  | .num _, .arr _, h => by simp [beq] at h
  | .num _, .obj _, h => by simp [beq] at h
  | .str _, .null, h => by simp [beq] at h
  | .str _, .bool _, h => by simp [beq] at h
  | .str _, .num _, h => by simp [beq] at h
  | .str _, .arr _, h => by simp [beq] at h
  | .str _, .obj _, h => by simp [beq] at h
  | .arr _, .null, h => by simp [beq] at h
  | .arr _, .bool _, h => by simp [beq] at h
  | .arr _, .num _, h => by simp [beq] at h
  | .arr _, .str _, h => by simp [beq] at h
  | .arr _, .obj _, h => by simp [beq] at h
  | .obj _, .null, h => by simp [beq] at h
  | .obj _, .bool _, h => by simp [beq] at h
  | .obj _, .num _, h => by simp [beq] at h
  | .obj _, .str _, h => by simp [beq] at h
  | .obj _, .arr _, h => by simp [beq] at h

theorem beqList_eq : ∀ xs ys : List Json, beq.beqList xs ys = true → xs = ys
  | [], [], _ => rfl
  | x :: xs, y :: ys, h => by
    have h' := h
    simp only [beq.beqList, Bool.and_eq_true] at h'
    have h1 : x = y := beq_eq x y h'.1
    have h2 : xs = ys := beqList_eq xs ys h'.2
    simp [h1, h2]
  | [], _ :: _, h => by simp [beq.beqList] at h
  | _ :: _, [], h => by simp [beq.beqList] at h

theorem beqEntries_eq : ∀ es fs : List (String × Json), beq.beqEntries es fs = true → es = fs
  | [], [], _ => rfl
  | e :: es, f :: fs, h => by
    have h' := h
    simp only [beq.beqEntries, Bool.and_eq_true] at h'
    have h1 : e.1 = f.1 := by simpa using h'.1.1
    have h2 : e.2 = f.2 := beq_eq e.2 f.2 h'.1.2
    have h3 : es = fs := beqEntries_eq es fs h'.2
    have : e = f := Prod.ext h1 h2
    simp [this, h3]
  | [], _ :: _, h => by simp [beq.beqEntries] at h
  | _ :: _, [], h => by simp [beq.beqEntries] at h
end

mutual
theorem beq_refl : ∀ a : Json, beq a a = true
  | .null => rfl
  | .bool a => by simp [beq]
  | .num a => by simp [beq]
  | .str a => by simp [beq]
  | .arr xs => by simpa [beq] using beqList_refl xs
  | .obj es => by simpa [beq] using beqEntries_refl es

theorem beqList_refl : ∀ xs : List Json, beq.beqList xs xs = true
  | [] => rfl
  | x :: xs => by simp [beq.beqList, beq_refl x, beqList_refl xs]

theorem beqEntries_refl : ∀ es : List (String × Json), beq.beqEntries es es = true
  | [] => rfl
  | e :: es => by simp [beq.beqEntries, beq_refl e.2, beqEntries_refl es]
end

instance : DecidableEq Json := fun a b =>
  if h : beq a b = true then .isTrue (beq_eq a b h)
  else .isFalse (fun he => h (he ▸ beq_refl a))

/-- Python dict `.get(key)`: first (only) entry with that key, `None` when
missing or when self is not a dict. -/
def get : Json → String → Option Json
  | .obj entries, k =>
    match entries.find? (fun e => e.1 == k) with
    | some e => some e.2
    | none => none
  | _, _ => none

/-- Python dict `.get(key, default)`. -/
def getD (j : Json) (k : String) (d : Json) : Json := (j.get k).getD d

/-- Python `key in dict`. -/
def hasKey (j : Json) (k : String) : Bool := (j.get k).isSome

/-- The keys of an object in entry order. -/
def keys : Json → List String
  | .obj entries => entries.map Prod.fst
  | _ => []

/-- Python dict item assignment `d[k] = v`: replaces the value in place if
the key exists, else appends the entry (insertion order preserved). -/
def set : Json → String → Json → Json
  | .obj entries, k, v =>
    if entries.any (fun e => e.1 == k) then
      .obj (entries.map (fun e => if e.1 == k then (e.1, v) else e))
    else
      .obj (entries ++ [(k, v)])
  | j, _, _ => j

def isObj : Json → Bool
  | .obj _ => true
  | _ => false

def isArr : Json → Bool
  | .arr _ => true
  | _ => false

def isStr : Json → Bool
  | .str _ => true
  | _ => false

/-- Python truthiness of a JSON-decoded value: `None`, `False`, `0`, `""`,
`[]`, and the empty dict are falsy. -/
def truthy : Json → Bool
  | .null => false
  | .bool b => b
  | .num n => n != 0
  | .str s => s ≠ ""
  | .arr elems => elems ≠ []
  | .obj entries => entries ≠ []

end Json

/-- Python truthiness of `dict.get(k)` results (`None` for a missing key is
falsy). -/
def pyTruthy : Option Json → Bool
  | none => false
  | some j => j.truthy

/-- Python `a or b` over two `dict.get` results: the first operand when
truthy, else the second. -/
def pyOr (a b : Option Json) : Option Json := if pyTruthy a then a else b

/-- Python `str()` / f-string rendering of a JSON-decoded scalar.  The
pipeline only ever formats strings and integers this way (`source.kind`,
`source.locator`, `span.idx`, message content); containers are rendered as
their JSON text here, an approximation of Python `repr` that no modelled
code path reaches. -/
def pyStr : Json → String
  | .null => "None"
  | .bool true => "True"
  | .bool false => "False"
  | .num n => toString n
  | .str s => s
  | j => toString (repr j)

/-! ## `json.dumps` (ensure_ascii=False) -/

/-- Lower-case hexadecimal digit. -/
def hexDigit (n : Nat) : Char :=
  if n < 10 then Char.ofNat (48 + n) else Char.ofNat (87 + n)

/-- Escaping of one character as `json.dumps(..., ensure_ascii=False)` does
it: quote, backslash and named control escapes, `\u00XX` for the other
control characters, everything else (non-ASCII included) verbatim. -/
def jsonEscapeChar (c : Char) : String :=
  if c = '"' then "\\\""
  else if c = '\\' then "\\\\"
  else if c = '\n' then "\\n"
  else if c = '\t' then "\\t"
  else if c = '\r' then "\\r"
  else if c.toNat = 8 then "\\b"
  else if c.toNat = 12 then "\\f"
  else if c.toNat < 32 then
    "\\u00" ++ String.mk [hexDigit (c.toNat / 16), hexDigit (c.toNat % 16)]
  else String.singleton c

/-- A JSON string literal. -/
def jsonQuote (s : String) : String :=
  "\"" ++ String.join (s.data.map jsonEscapeChar) ++ "\""

theorem sizeOf_lt_arr {x : Json} {elems : List Json} (h : x ∈ elems) :
    sizeOf x < 1 + sizeOf elems := by
  have := List.sizeOf_lt_of_mem h
  omega

theorem sizeOf_lt_obj {e : String × Json} {entries : List (String × Json)} (h : e ∈ entries) :
    sizeOf e.2 < 1 + sizeOf entries := by
  have h1 := List.sizeOf_lt_of_mem h
  have h2 : sizeOf e.2 < sizeOf e := by cases e with | mk a b => simp
  omega

/-- `json.dumps` with the given item and key-value separators, object
entries in insertion order (no `sort_keys`).  Booleans and integers render
exactly as Python renders them. -/
def serializeWith (isep ksep : String) : Json → String
  | .null => "null"
  | .bool true => "true"
  | .bool false => "false"
  | .num n => toString n
  | .str s => jsonQuote s
  | .arr elems =>
    "[" ++ String.intercalate isep (elems.attach.map (fun x => serializeWith isep ksep x.1)) ++ "]"
  | .obj entries =>
    "\x7b" ++
      String.intercalate isep
        (entries.attach.map (fun e => jsonQuote e.1.1 ++ ksep ++ serializeWith isep ksep e.1.2)) ++
      "\x7d"
decreasing_by
  all_goals simp_wf
  all_goals first
    | exact sizeOf_lt_arr x.property
    | exact sizeOf_lt_obj e.property

/-- The key order `json.dumps(..., sort_keys=True)` uses: Python sorts the
items of each dict by their string keys in code-point order. -/
def keyLe (a b : String × Json) : Prop := a.1 ≤ b.1

instance : DecidableRel keyLe := fun a b => inferInstanceAs (Decidable (a.1 ≤ b.1))

/-- Recursively sort every object's entries by key.  `json.dumps` with
`sort_keys=True` emits exactly the serialization of this canonical form
(sorting commutes with emitting each entry). -/
def canon : Json → Json
  | .null => .null
  | .bool b => .bool b
  | .num n => .num n
  | .str s => .str s
  | .arr elems => .arr (elems.attach.map (fun x => canon x.1))
  | .obj entries =>
    .obj (List.insertionSort keyLe (entries.attach.map (fun e => (e.1.1, canon e.1.2))))
decreasing_by
  all_goals simp_wf
  all_goals first
    | exact sizeOf_lt_arr x.property
    | exact sizeOf_lt_obj e.property

/-- `json.dumps(x, ensure_ascii=False, sort_keys=True, separators=(",", ":"))`,
the serialization `event_hash` feeds to SHA-256 (events.py line 10). -/
def dumps_sorted (j : Json) : String := serializeWith "," ":" (canon j)

/-- `json.dumps(x, ensure_ascii=False)` with the library's default
separators `", "` and `": "`, insertion order — what `append_event`
(canonical.py) and the `*_json` index columns store. -/
def dumps_default (j : Json) : String := serializeWith ", " ": " j

/-! ## UTF-8 and SHA-256 (`hashlib.sha256(...).hexdigest()`) -/

/-- UTF-8 encoding of one character, as a list of byte values. -/
def utf8Char (c : Char) : List Nat :=
  let n := c.toNat
  if n < 128 then [n]
  else if n < 2048 then [192 + n / 64, 128 + n % 64]
  else if n < 65536 then [224 + n / 4096, 128 + n / 64 % 64, 128 + n % 64]
  else [240 + n / 262144, 128 + n / 4096 % 64, 128 + n / 64 % 64, 128 + n % 64]

/-- UTF-8 encoding of a string (Python `s.encode("utf-8")`). -/
def utf8 (s : String) : List Nat := (s.data.map utf8Char).flatten

/-- Keep the low 32 bits. -/
def w32 (n : Nat) : Nat := n % 4294967296

/-- 32-bit right rotation. -/
def rotr (n x : Nat) : Nat := w32 ((x >>> n) ||| (x <<< (32 - n)))

def shaCh (x y z : Nat) : Nat := (x &&& y) ^^^ ((x ^^^ 4294967295) &&& z)

def shaMaj (x y z : Nat) : Nat := (x &&& y) ^^^ (x &&& z) ^^^ (y &&& z)

def bigSigma0 (x : Nat) : Nat := rotr 2 x ^^^ rotr 13 x ^^^ rotr 22 x

def bigSigma1 (x : Nat) : Nat := rotr 6 x ^^^ rotr 11 x ^^^ rotr 25 x

def smallSigma0 (x : Nat) : Nat := rotr 7 x ^^^ rotr 18 x ^^^ (x >>> 3)

def smallSigma1 (x : Nat) : Nat := rotr 17 x ^^^ rotr 19 x ^^^ (x >>> 10)

/-- The SHA-256 round constants. -/
def shaK : List Nat :=
  [1116352408, 1899447441, 3049323471, 3921009573, 961987163, 1508970993,
   2453635748, 2870763221, 3624381080, 310598401, 607225278, 1426881987,
   1925078388, 2162078206, 2614888103, 3248222580, 3835390401, 4022224774,
   264347078, 604807628, 770255983, 1249150122, 1555081692, 1996064986,
   2554220882, 2821834349, 2952996808, 3210313671, 3336571891, 3584528711,
   113926993, 338241895, 666307205, 773529912, 1294757372, 1396182291,
   1695183700, 1986661051, 2177026350, 2456956037, 2730485921, 2820302411,
   3259730800, 3345764771, 3516065817, 3600352804, 4094571909, 275423344,
   430227734, 506948616, 659060556, 883997877, 958139571, 1322822218,
   1537002063, 1747873779, 1955562222, 2024104815, 2227730452, 2361852424,
   2428436474, 2756734187, 3204031479, 3329325298]

/-- The eight SHA-256 working/state words. -/
structure Hash8 where
  a : Nat
  b : Nat
  c : Nat
  d : Nat
  e : Nat
  f : Nat
  g : Nat
  h : Nat
deriving Repr, DecidableEq

/-- The SHA-256 initial hash value. -/
def shaH0 : Hash8 :=
  ⟨1779033703, 3144134277, 1013904242, 2773480762,
   1359893119, 2600822924, 528734635, 1541459225⟩

/-- SHA-256 padding: `0x80`, zeros to 56 mod 64, then the bit length as
eight big-endian bytes. -/
def shaPad (msg : List Nat) : List Nat :=
  let len := msg.length
  let zeros := (64 - (len + 9) % 64) % 64
  let bits := len * 8
  msg ++ [128] ++ List.replicate zeros 0 ++
    [(bits >>> 56) % 256, (bits >>> 48) % 256, (bits >>> 40) % 256, (bits >>> 32) % 256,
     (bits >>> 24) % 256, (bits >>> 16) % 256, (bits >>> 8) % 256, bits % 256]

/-- Big-endian 32-bit words from bytes. -/
def bytesToWords : List Nat → List Nat
  | a :: b :: c :: d :: rest => (a * 16777216 + b * 65536 + c * 256 + d) :: bytesToWords rest
  | _ => []

/-- Split a word list into blocks of 16 (a padded SHA-256 message is
always a whole number of blocks). -/
def chunk16 : List Nat → List (List Nat)
  | w0 :: w1 :: w2 :: w3 :: w4 :: w5 :: w6 :: w7 ::
    w8 :: w9 :: w10 :: w11 :: w12 :: w13 :: w14 :: w15 :: rest =>
    [w0, w1, w2, w3, w4, w5, w6, w7, w8, w9, w10, w11, w12, w13, w14, w15] :: chunk16 rest
  | _ => []

/-- One message-schedule extension step over the sliding window
`w[t-16] .. w[t-1]` (oldest first). -/
def scheduleStep (window : List Nat) : Nat :=
  w32 (smallSigma1 (window.getD 14 0) + window.getD 9 0 +
    smallSigma0 (window.getD 1 0) + window.getD 0 0)

/-- The remaining `k` schedule words. -/
def scheduleRest : Nat → List Nat → List Nat
  | 0, _ => []
  | k + 1, window =>
    let nw := scheduleStep window
    nw :: scheduleRest k (window.drop 1 ++ [nw])

/-- The 64-entry message schedule of one block. -/
def schedule (block : List Nat) : List Nat := block ++ scheduleRest 48 block

/-- One SHA-256 round. -/
def compressStep (s : Hash8) (kw : Nat × Nat) : Hash8 :=
  let t1 := w32 (s.h + bigSigma1 s.e + shaCh s.e s.f s.g + kw.1 + kw.2)
  let t2 := w32 (bigSigma0 s.a + shaMaj s.a s.b s.c)
  ⟨w32 (t1 + t2), s.a, s.b, s.c, w32 (s.d + t1), s.e, s.f, s.g⟩

/-- Compression of one 16-word block. -/
def compressBlock (h : Hash8) (block : List Nat) : Hash8 :=
  let s := (shaK.zip (schedule block)).foldl compressStep h
  ⟨w32 (h.a + s.a), w32 (h.b + s.b), w32 (h.c + s.c), w32 (h.d + s.d),
   w32 (h.e + s.e), w32 (h.f + s.f), w32 (h.g + s.g), w32 (h.h + s.h)⟩

/-- SHA-256 over a byte list, as the eight state words. -/
def sha256Words (msg : List Nat) : Hash8 :=
  (chunk16 (bytesToWords (shaPad msg))).foldl compressBlock shaH0

/-- The four big-endian bytes of a 32-bit word. -/
def wordBytes (w : Nat) : List Nat :=
  [(w >>> 24) % 256, (w >>> 16) % 256, (w >>> 8) % 256, w % 256]

/-- Two lower-case hex digits of a byte. -/
def hexByte (b : Nat) : String := String.mk [hexDigit (b / 16 % 16), hexDigit (b % 16)]

def hexOfBytes : List Nat → String
  | [] => ""
  | b :: bs => hexByte b ++ hexOfBytes bs

/-- `sha256_hex(data)` (utils.py): the lower-case hex SHA-256 digest. -/
def sha256_hex (data : List Nat) : String :=
  let d := sha256Words data
  hexOfBytes (wordBytes d.a ++ wordBytes d.b ++ wordBytes d.c ++ wordBytes d.d ++
    wordBytes d.e ++ wordBytes d.f ++ wordBytes d.g ++ wordBytes d.h)

/-! ## `normalize_text` (utils.py) and dedupe keys (events.py) -/

/-- `text.replace("\r\n", "\n").replace("\r", "\n")` as one scan. -/
def normNewlines : List Char → List Char
  | [] => []
  | '\r' :: '\n' :: rest => '\n' :: normNewlines rest
  | '\r' :: rest => '\n' :: normNewlines rest
  | c :: rest => c :: normNewlines rest

/-- `text.split("\n")`. -/
def splitNl : List Char → List (List Char)
  | [] => [[]]
  | '\n' :: rest => [] :: splitNl rest
  | c :: rest =>
    match splitNl rest with
    | l :: ls => (c :: l) :: ls
    | [] => [[c]]

/-- `"\n".join(lines)`. -/
def joinNl : List (List Char) → List Char
  | [] => []
  | [l] => l
  | l :: ls => l ++ '\n' :: joinNl ls

/-- Python `str.rstrip()` on one line (after CRLF normalization the lines
hold no newline, so the ASCII whitespace set is what can occur). -/
def rstripLine (cs : List Char) : List Char :=
  (cs.reverse.dropWhile
    (fun c => c = ' ' ∨ c = '\t' ∨ c = '\n' ∨ c = '\r' ∨ c = '\x0b' ∨ c = '\x0c')).reverse

/-- `re.sub(r"[ \t]+", " ", s)`: collapse each maximal run of spaces/tabs
to a single space.  The flag records whether the previous character
belonged to a run. -/
def collapseSpacesAux : Bool → List Char → List Char
  | _, [] => []
  | inRun, c :: rest =>
    if c = ' ' ∨ c = '\t' then
      if inRun then collapseSpacesAux true rest
      else ' ' :: collapseSpacesAux true rest
    else c :: collapseSpacesAux false rest

/-- `normalize_text(text)` (utils.py): CRLF/CR to LF, strip each line's
trailing whitespace, collapse space/tab runs. -/
def normalize_text (text : String) : String :=
  let t := normNewlines text.data
  let lines := (splitNl t).map rstripLine
  let normalized := joinNl lines
  String.mk (collapseSpacesAux false normalized)

/-- `dedupe_key(adapter, locator, idx, content)` (events.py).  `idx` is the
raw JSON value found at `refs[0].span.idx` (an integer in every event the
adapter builds); Python renders it through the f-string. -/
def dedupe_key (adapter locator : String) (idx : Json) (content : String) : String :=
  let span_key := "idx:" ++ pyStr idx
  let norm_text := normalize_text content
  let material := adapter ++ "|" ++ locator ++ "|" ++ span_key ++ "|" ++ norm_text
  sha256_hex (utf8 material)

/-- `dedupe_key_from_draft(draft)` (events.py lines 50-68): `None` unless
the draft is a chat message with source kind/locator, a `refs[0].span.idx`,
and truthy content. -/
def dedupe_key_from_draft (draft : Json) : Option String :=
  if draft.get "type" ≠ some (.str "chat.message") then none
  else
    let source := draft.getD "source" (.obj [])
    let adapter_name := source.get "kind"
    let locator := source.get "locator"
    if ¬ pyTruthy adapter_name ∨ ¬ pyTruthy locator then none
    else
      let refs := draft.getD "refs" (.arr [])
      let idx : Option Json :=
        match refs with
        | .arr (r :: _) => (r.getD "span" (.obj [])).get "idx"
        | _ => none
      match idx with
      | none => none
      | some .null => none
      | some idxv =>
        let payload := draft.getD "payload" (.obj [])
        let content := pyOr (payload.get "content") (draft.get "text")
        if ¬ pyTruthy content then none
        else
          some (dedupe_key (pyStr (adapter_name.getD .null)) (pyStr (locator.getD .null))
            idxv (pyStr (content.getD .null)))

/-- `event_hash(event_data)` (events.py lines 9-16): hex SHA-256 of the
canonical serialization (sorted keys, no ASCII escaping, minimal
separators), returned as the `{algo, value}` dict. -/
def event_hash (event_data : Json) : Json :=
  .obj [("algo", .str "sha256"),
        ("value", .str (sha256_hex (utf8 (dumps_sorted event_data))))]

/-! ## Draft validation (daemon.py `_validate_draft`) -/

/-- `_validate_draft(draft)` (daemon.py lines 776-793): `None` when valid,
else the first failing check's message. -/
def validate_draft (draft : Json) : Option String :=
  if ¬ draft.isObj then some "Event draft must be an object"
  else
    match ["schema_version", "ts", "type", "source", "refs", "text", "payload"].find?
        (fun k => ¬ draft.hasKey k) with
    | some k => some ("Missing " ++ k)
    | none =>
      if ¬ (draft.getD "source" .null).isObj then some "source must be an object"
      else if ¬ pyTruthy ((draft.getD "source" .null).get "kind") ∨
          ¬ pyTruthy ((draft.getD "source" .null).get "locator") then
        some "source.kind and source.locator are required"
      else if ¬ (draft.getD "refs" .null).isArr then some "refs must be a list"
      else if ¬ (draft.getD "text" .null).isStr then some "text must be a string"
      else if ¬ (draft.getD "payload" .null).isObj then some "payload must be an object"
      else none

/-! ## The index store and the canonical log

The SQLite tables (db.py DDL) and the canonical `events.jsonl` file become
one explicit record.  The `*_json` columns hold `json.dumps(...,
ensure_ascii=False)` of JSON values; the rows keep the values themselves
and serialize on demand (`json.loads` of a `dumps` output gives the value
back, so this carries the same information as the TEXT column). -/

/-- One row of the `events` table. -/
structure EventRow where
  id : String
  schema_version : String
  ts : String
  type : String
  tags : Json
  text : String
  payload : Json
  source_kind : String
  source_locator : String
  source_meta : Json
  hash_algo : String
  hash_value : String
  dedupe_key : Option String
  created_at : String
deriving Repr, DecidableEq

/-- One row of the `refs` table (in rowid order). -/
structure RefRow where
  event_id : String
  ref_kind : String
  uri : String
  span : Json
  digest_algo : Option String
  digest_value : Option String
deriving Repr, DecidableEq

/-- One row of the `dedupe` table (`dedupe_key` is the primary key). -/
structure DedupeRow where
  dedupe_key : String
  event_id : String
  first_seen_ts : String
deriving Repr, DecidableEq

/-- The canonical log (events appended in order) plus the index tables. -/
structure Store where
  log : List Json
  events : List EventRow
  refs : List RefRow
  dedupe : List DedupeRow
deriving Repr, DecidableEq

def emptyStore : Store := ⟨[], [], [], []⟩

/-- The text content of `canonical/events.jsonl`: each append writes
`json.dumps(event, ensure_ascii=False)` and a newline (canonical.py). -/
def logText (st : Store) : String :=
  String.join (st.log.map (fun e => dumps_default e ++ "\n"))

/-- String field of an event object built by the pipeline (`event["id"]`
and friends; the pipeline always populates these). -/
def jstr (j : Json) (k : String) : String :=
  match j.get k with
  | some (.str s) => s
  | _ => ""

/-- Optional string field (`(ref.get("digest") or {}).get("algo")`). -/
def jOptStr (o : Option Json) : Option String :=
  match o with
  | some (.str s) => some s
  | _ => none

/-- Exceptions the write path can raise.  `opsIoErr` and `opsDb` are the
repository's `IOError` / `DatabaseError`; `sqlite` is a raw `sqlite3`
error, which is *not* an `ops.errors.DatabaseError`. -/
inductive PyErr where
  | opsIoErr (msg : String)
  | opsDb (msg : String)
  | sqlite (msg : String)
deriving Repr, DecidableEq

/-- The ambient world of one ingest call: the ULID stream
(`generate_ulid()` results in call order), the wall clock captured once as
`created_at = iso_now(...)`, and the I/O faults: `appendOsError ev` is the
`OSError` text raised while appending `ev` (none = success), `sqliteError
ev` the `sqlite3` error text raised inside `ev`'s index transaction. -/
structure IngestEnv where
  ulids : Nat → String
  now : String
  appendOsError : Json → Option String
  sqliteError : Json → Option String

/-- `append_event(path, event)` (canonical.py): serialize, append one line,
fsync; an `OSError` is wrapped into the repository's `IOError`.  The
append+fsync is atomic here (the spec's commit point): on failure nothing
was appended. -/
def append_event (env : IngestEnv) (ev : Json) (st : Store) : Except PyErr Store :=
  match env.appendOsError ev with
  | some m => .error (.opsIoErr ("Failed to append canonical event: " ++ m))
  | none => .ok { st with log := st.log ++ [ev] }

/-- The `events` row `_insert_event` writes (daemon.py lines 797-821). -/
def event_row_of (ev : Json) (key : Option String) (created_at : String) : EventRow :=
  let source := ev.getD "source" (.obj [])
  { id := jstr ev "id"
    schema_version := jstr ev "schema_version"
    ts := jstr ev "ts"
    type := jstr ev "type"
    tags := ev.getD "tags" (.arr [])
    text := jstr ev "text"
    payload := ev.getD "payload" (.obj [])
    source_kind := jstr source "kind"
    source_locator := jstr source "locator"
    source_meta := source.getD "meta" (.obj [])
    hash_algo := jstr (ev.getD "hash" (.obj [])) "algo"
    hash_value := jstr (ev.getD "hash" (.obj [])) "value"
    dedupe_key := key
    created_at := created_at }

@[simp] theorem event_row_of_dedupe_key (ev : Json) (key : Option String) (ca : String) :
    (event_row_of ev key ca).dedupe_key = key := rfl

@[simp] theorem event_row_of_created_at (ev : Json) (key : Option String) (ca : String) :
    (event_row_of ev key ca).created_at = ca := rfl

/-- The `refs` rows `_insert_event` writes (daemon.py lines 822-836),
one per entry of `event["refs"]`, in order. -/
def ref_rows_of (ev : Json) : List RefRow :=
  let refList : List Json := match ev.getD "refs" (.arr []) with | .arr rs => rs | _ => []
  refList.map (fun r =>
    { event_id := jstr ev "id"
      ref_kind := jstr r "kind"
      uri := jstr r "uri"
      span := r.getD "span" (.obj [])
      digest_algo := jOptStr ((r.getD "digest" .null).get "algo")
      digest_value := jOptStr ((r.getD "digest" .null).get "value") : RefRow })

/-- The `dedupe` table after `_insert_event`'s INSERT OR IGNORE
(daemon.py lines 837-841): only a truthy key whose row does not already
exist adds one. -/
def dedupe_rows_after (ev : Json) (key : Option String) (dedupe : List DedupeRow) :
    List DedupeRow :=
  match key with
  | some k =>
    if k ≠ "" then
      if dedupe.any (fun d => d.dedupe_key == k) then dedupe
      else dedupe ++ [⟨k, jstr ev "id", jstr ev "ts"⟩]
    else dedupe
  | none => dedupe

/-- The store after `_insert_event`'s transaction commits: the `events`
row, the `refs` rows, the `dedupe` row per the INSERT OR IGNORE. -/
def inserted_store (ev : Json) (key : Option String) (created_at : String)
    (st : Store) : Store :=
  { log := st.log
    events := st.events ++ [event_row_of ev key created_at]
    refs := st.refs ++ ref_rows_of ev
    dedupe := dedupe_rows_after ev key st.dedupe }

@[simp] theorem inserted_store_log (ev : Json) (key : Option String) (ca : String)
    (st : Store) : (inserted_store ev key ca st).log = st.log := rfl

@[simp] theorem inserted_store_events (ev : Json) (key : Option String) (ca : String)
    (st : Store) :
    (inserted_store ev key ca st).events = st.events ++ [event_row_of ev key ca] := rfl

theorem inserted_store_refs (ev : Json) (key : Option String) (ca : String)
    (st : Store) :
    (inserted_store ev key ca st).refs = st.refs ++ ref_rows_of ev := rfl

@[simp] theorem inserted_store_dedupe_none (ev : Json) (ca : String) (st : Store) :
    (inserted_store ev none ca st).dedupe = st.dedupe := rfl

theorem inserted_store_dedupe_fresh (ev : Json) (k : String) (ca : String) (st : Store)
    (hk : k ≠ "") (hany : st.dedupe.any (fun d => d.dedupe_key == k) = false) :
    (inserted_store ev (some k) ca st).dedupe =
      st.dedupe ++ [⟨k, jstr ev "id", jstr ev "ts"⟩] := by
  show dedupe_rows_after ev (some k) st.dedupe = _
  unfold dedupe_rows_after
  simp [hk, hany]

/-- `_insert_event(conn, event, dedupe_key, created_at)` (daemon.py lines
796-841) under `with conn:`: a sqlite fault raises a raw `sqlite3` error
(and the transaction rolls back, leaving no partial index change) — unlike
the CLI's copy of this function (cli.py lines 770-818), the daemon's has
no `try/except` wrapping it into `DatabaseError`.  On success the
transaction commits `inserted_store`. -/
def insert_event (env : IngestEnv) (ev : Json) (key : Option String) (created_at : String)
    (st : Store) : Except PyErr Store :=
  match env.sqliteError ev with
  | some m => .error (.sqlite m)
  | none => .ok (inserted_store ev key created_at st)

/-- What `_ingest_drafts` returns (plus the store it left behind and, when
an exception escaped the per-draft handling, that exception: the loop stops
there and the HTTP 200 response is never built). -/
structure IngestOutcome where
  store : Store
  new : Nat
  skipped : Nat
  failed : Nat
  results : List Json
  errors : List String
  ids : List String
  aborted : Option PyErr
deriving Repr, DecidableEq

/-- Python truthiness of an `Optional[str]` (`not dedupe_key`). -/
def pyTruthyStr : Option String → Bool
  | some s => s ≠ ""
  | none => false

def keyJson : Option String → Json
  | some k => .str k
  | none => .null

/-- The event core `_ingest_drafts` builds from a validated draft
(daemon.py lines 730-739), in the source's key order. -/
def event_core_entries (draft : Json) : List (String × Json) :=
  [("schema_version", draft.getD "schema_version" .null),
   ("ts", draft.getD "ts" .null),
   ("type", draft.getD "type" .null),
   ("source", draft.getD "source" .null),
   ("refs", draft.getD "refs" .null),
   ("tags", draft.getD "tags" (.arr [])),
   ("text", draft.getD "text" .null),
   ("payload", draft.getD "payload" .null)]

/-- The complete event (daemon.py lines 740-745): the core's entries plus
`id`, `hash = event_hash(core)` and `dedupe_key`, in that order. -/
def built_event (draft : Json) (evId : String) (dk : Option String) : Json :=
  .obj (event_core_entries draft ++
    [("id", .str evId), ("hash", event_hash (.obj (event_core_entries draft))),
     ("dedupe_key", keyJson dk)])

/-- The per-draft loop of `_ingest_drafts` (daemon.py lines 687-773),
processing `drafts` against `st` with `n` ULIDs already drawn.  Mirrors the
source's flow: validate; compute the dedupe key; fail when dedupe was
requested and the key is falsy; skip when the key is already in `dedupe`;
otherwise build the event core, hash it, draw an id, and (unless `dry_run`)
append to the log and insert into the index.  An `IOError` from the append
and a `DatabaseError` from the insert are caught as failed results; the
daemon's `_insert_event` only ever raises raw `sqlite3` errors, which
nothing catches, so they abort the loop. -/
def ingest_loop (env : IngestEnv) (dedupe dry_run : Bool) :
    List Json → Store → Nat → IngestOutcome
  | [], st, _ => ⟨st, 0, 0, 0, [], [], [], none⟩
  | draft :: rest, st, n =>
    match validate_draft draft with
    | some err =>
      let o := ingest_loop env dedupe dry_run rest st n
      { o with
        failed := o.failed + 1
        results := .obj [("status", .str "failed"), ("error", .str err)] :: o.results
        errors := err :: o.errors }
    | none =>
      let dk := dedupe_key_from_draft draft
      if dedupe ∧ ¬ pyTruthyStr dk then
        let err := "Unable to compute dedupe_key"
        let o := ingest_loop env dedupe dry_run rest st n
        { o with
          failed := o.failed + 1
          results := .obj [("status", .str "failed"), ("error", .str err)] :: o.results
          errors := err :: o.errors }
      else
        match (if dedupe ∧ pyTruthyStr dk then
            st.dedupe.find? (fun d => some d.dedupe_key == dk) else none) with
        | some drow =>
          let o := ingest_loop env dedupe dry_run rest st n
          { o with
            skipped := o.skipped + 1
            results := .obj [("status", .str "skipped"),
              ("existing_event_id", .str drow.event_id),
              ("dedupe_key", keyJson dk)] :: o.results }
        | none =>
          let evId := env.ulids n
          let ev := built_event draft evId dk
          let insertedResult := Json.obj
            [("status", .str "inserted"), ("event_id", .str evId),
             ("dedupe_key", keyJson dk),
             ("hash", event_hash (.obj (event_core_entries draft)) |>.getD "value" .null)]
          if dry_run then
            let o := ingest_loop env dedupe dry_run rest st (n + 1)
            { o with
              new := o.new + 1
              results := insertedResult :: o.results
              ids := evId :: o.ids }
          else
            match append_event env ev st with
            | .error (.opsIoErr m) =>
              let o := ingest_loop env dedupe dry_run rest st (n + 1)
              { o with
                failed := o.failed + 1
                results := .obj [("status", .str "failed"), ("error", .str m),
                  ("dedupe_key", keyJson dk)] :: o.results
                errors := m :: o.errors }
            | .error e => ⟨st, 0, 0, 0, [], [], [], some e⟩
            | .ok st1 =>
              match insert_event env ev dk env.now st1 with
              | .error (.opsDb m) =>
                let o := ingest_loop env dedupe dry_run rest st1 (n + 1)
                { o with
                  failed := o.failed + 1
                  results := .obj [("status", .str "failed"), ("error", .str m),
                    ("dedupe_key", keyJson dk)] :: o.results
                  errors := m :: o.errors }
              | .error e => ⟨st1, 0, 0, 0, [], [], [], some e⟩
              | .ok st2 =>
                let o := ingest_loop env dedupe dry_run rest st2 (n + 1)
                { o with
                  new := o.new + 1
                  results := insertedResult :: o.results
                  ids := evId :: o.ids }

/-- `_ingest_drafts(server, drafts, dedupe, dry_run)` (daemon.py). -/
def ingest_drafts (env : IngestEnv) (drafts : List Json) (dedupe dry_run : Bool)
    (st : Store) : IngestOutcome :=
  ingest_loop env dedupe dry_run drafts st 0

/-- The dedupe flag `_handle_batch` passes (daemon.py line 185):
`bool(options.get("dedupe", True))`. -/
def batch_dedupe (options : Json) : Bool :=
  match options.get "dedupe" with
  | some v => v.truthy
  | none => true

/-- `_handle_batch(events, options)` (daemon.py lines 184-201): run the
pipeline with the requested dedupe flag and `dry_run=False`. -/
def handle_batch (env : IngestEnv) (events : List Json) (options : Json)
    (st : Store) : IngestOutcome :=
  ingest_drafts env events (batch_dedupe options) false st

/-! ## Query engine (daemon.py `_query_events` and friends) -/

/-- The config fields the query engine reads (`index.fts`,
`index.max_snippet_len` from ops.yml; defaults true / 160). -/
structure QueryConfig where
  fts_enabled : Bool := true
  max_snippet_len : Nat := 160
deriving Repr, DecidableEq

/-- Lexicographic comparison by code point over the characters — the
order SQLite's memcmp over UTF-8 TEXT and Python's `<=` on `str` both
realize. -/
def charListLe : List Char → List Char → Bool
  | [], _ => true
  | _ :: _, [] => false
  | a :: as, b :: bs => if a = b then charListLe as bs else decide (a.toNat < b.toNat)

def strLe (a b : String) : Bool := charListLe a.data b.data

/-- Python `max` on two strings (the larger; the first on equality). -/
def pyMaxStr (a b : String) : String := if strLe b a then a else b

/-- Python `min` on two strings (the smaller; the first on equality). -/
def pyMinStr (a b : String) : String := if strLe a b then a else b

def listStartsWith : List Char → List Char → Bool
  | _, [] => true
  | [], _ :: _ => false
  | c :: cs, p :: ps => c == p && listStartsWith cs ps

def listContains (pat : List Char) : List Char → Bool
  | [] => listStartsWith [] pat
  | c :: rest => listStartsWith (c :: rest) pat || listContains pat rest

/-- SQL `LIKE '%pat%'` over TEXT: substring containment. -/
def strContains (s pat : String) : Bool := listContains pat.data s.data

/-- The params dict every query handler builds (`q`, `types`, `tags`,
`after`, `before`, `limit`, `format`, `order`); JSON-typed because the
values come straight out of request/view JSON, `None` as `null`. -/
structure QueryParams where
  q : Json := .null
  types : Json := .null
  tags : Json := .null
  after : Json := .null
  before : Json := .null
  limit : Nat := 50
  format : Json := .str "summary"
  order : Json := .str "desc"
deriving Repr, DecidableEq

def jList : Json → List Json
  | .arr elems => elems
  | _ => []

/-- The WHERE clause `_query_events` assembles (daemon.py lines 876-904),
as a predicate on one `events` row.  `ftsMatch text q` stands for the
SQLite FTS5 `events_fts MATCH ?` join on this row (external tokenizer
behaviour, kept as a parameter); with FTS disabled the condition is `text
LIKE %q%`.  Timestamp bounds compare as strings, both inclusive
(`ts >= after`, `ts <= before`); a tag matches by the JSON-quoted
substring `"tag"` against the serialized tags column. -/
def row_matches (ftsMatch : String → String → Bool) (cfg : QueryConfig)
    (p : QueryParams) (e : EventRow) : Bool :=
  (if p.types.truthy then (jList p.types).any (fun t => t == .str e.type) else true) &&
  (if p.tags.truthy then
    (jList p.tags).any (fun t =>
      strContains (dumps_default e.tags) ("\"" ++ pyStr t ++ "\"")) else true) &&
  (if p.after.truthy then strLe (pyStr p.after) e.ts else true) &&
  (if p.before.truthy then strLe e.ts (pyStr p.before) else true) &&
  (if p.q.truthy then
    (if cfg.fts_enabled then ftsMatch e.text (pyStr p.q)
     else strContains e.text (pyStr p.q)) else true)

def tsLeAsc (a b : EventRow) : Prop := strLe a.ts b.ts = true

def tsLeDesc (a b : EventRow) : Prop := strLe b.ts a.ts = true

instance : DecidableRel tsLeAsc := fun a b =>
  inferInstanceAs (Decidable (strLe a.ts b.ts = true))

instance : DecidableRel tsLeDesc := fun a b =>
  inferInstanceAs (Decidable (strLe b.ts a.ts = true))

/-- The row set `_query_events`'s SQL returns: WHERE, ORDER BY `ts` in the
requested direction (modelled as a stable sort; SQLite fixes no order
among equal `ts`), LIMIT. -/
def select_rows (ftsMatch : String → String → Bool) (cfg : QueryConfig)
    (p : QueryParams) (rows : List EventRow) : List EventRow :=
  let filtered := rows.filter (row_matches ftsMatch cfg p)
  let sorted := if p.order == Json.str "asc" then filtered.insertionSort tsLeAsc
    else filtered.insertionSort tsLeDesc
  sorted.take p.limit

/-- `_fetch_refs(conn, event_id)` (daemon.py lines 950-965): this event's
refs in rowid order, as `{kind, uri, span, digest}` dicts. -/
def fetch_refs (st : Store) (event_id : String) : List Json :=
  (st.refs.filter (fun r => r.event_id == event_id)).map (fun r =>
    .obj [("kind", .str r.ref_kind), ("uri", .str r.uri), ("span", r.span),
      ("digest",
        if pyTruthyStr r.digest_algo then
          .obj [("algo", .str (r.digest_algo.getD "")),
                ("value", match r.digest_value with | some v => .str v | none => .null)]
        else .null)])

/-- `_event_from_row` (daemon.py lines 968-987): the full event rebuilt
from its row and refs. -/
def event_from_row (st : Store) (e : EventRow) : Json :=
  .obj [("schema_version", .str e.schema_version), ("id", .str e.id), ("ts", .str e.ts),
    ("type", .str e.type),
    ("source", .obj [("kind", .str e.source_kind), ("locator", .str e.source_locator),
      ("meta", e.source_meta)]),
    ("refs", .arr (fetch_refs st e.id)), ("tags", e.tags), ("text", .str e.text),
    ("payload", e.payload),
    ("hash", .obj [("algo", .str e.hash_algo), ("value", .str e.hash_value)]),
    ("dedupe_key", match e.dedupe_key with | some k => .str k | none => .null)]

/-- One summary row (daemon.py lines 919-939): `id, ts, type, tags,
snippet = substr(text, 1, max_snippet_len), refs`. -/
def summary_item (cfg : QueryConfig) (st : Store) (e : EventRow) : Json :=
  .obj [("id", .str e.id), ("ts", .str e.ts), ("type", .str e.type), ("tags", e.tags),
    ("snippet", .str (String.mk (e.text.data.take cfg.max_snippet_len))),
    ("refs", .arr (fetch_refs st e.id))]

/-- `_query_events(conn, config, params)` (daemon.py lines 865-940). -/
def query_events (ftsMatch : String → String → Bool) (cfg : QueryConfig)
    (p : QueryParams) (st : Store) : List Json :=
  let rows := select_rows ftsMatch cfg p st.events
  if p.format == Json.str "full" then rows.map (event_from_row st)
  else rows.map (summary_item cfg st)

/-- The params `cli._local_search` builds (cli.py lines 498-517): the given
`q`, no type/tag/time filters unless passed, order fixed to `desc`.  The
offline `search` path then calls `_query_events` directly — there is no
second query after an empty FTS result. -/
def local_search_params (q : String) (limit : Nat) (format : String) : QueryParams :=
  { q := .str q, limit := limit, format := .str format, order := .str "desc" }

/-! ## Saved-view merge (daemon.py `_merge_view_filters`) -/

/-- `_merge_tags(base, extra)` (daemon.py lines 671-676): ordered union,
de-duplicated by first occurrence. -/
def merge_tags (base extra : List Json) : List Json :=
  (base ++ extra).foldl (fun merged item => if item ∈ merged then merged else merged ++ [item]) []

/-- Python `x is not None` for a `dict.get` result on a JSON dict: the key
is present with a non-null value (json.loads turns null into None). -/
def presentNotNone (o : Option Json) : Bool :=
  match o with
  | some v => v != .null
  | none => false

/-- `_merge_view_filters(view_query, request_filters)` (daemon.py lines
990-1025), ported branch for branch, including the truthiness tests
(`if stored and request`) versus the `is not None` tests of the `elif`
branches.  `max`/`min` on the timestamp bounds compare the values as the
strings they are in every stored view and request. -/
def merge_view_filters (view_query request_filters : Json) : Json :=
  let query := view_query
  let stored_filters :=
    if (query.getD "filters" (.obj [])).isObj then query.getD "filters" (.obj []) else .obj []
  let request_filters := if request_filters.truthy then request_filters else .obj []
  let merged0 := stored_filters
  let stored_types := stored_filters.get "type"
  let request_types := request_filters.get "type"
  let merged1 :=
    if pyTruthy stored_types ∧ pyTruthy request_types then
      merged0.set "type"
        (.arr ((jList (stored_types.getD .null)).filter
          (fun v => v ∈ jList (request_types.getD .null))))
    else if presentNotNone request_types then merged0.set "type" (request_types.getD .null)
    else merged0
  let stored_tags := stored_filters.get "tag"
  let request_tags := request_filters.get "tag"
  let merged2 :=
    if pyTruthy stored_tags ∧ pyTruthy request_tags then
      merged1.set "tag"
        (.arr (merge_tags (jList (stored_tags.getD .null)) (jList (request_tags.getD .null))))
    else if presentNotNone request_tags then merged1.set "tag" (request_tags.getD .null)
    else merged1
  let stored_after := stored_filters.get "after"
  let request_after := request_filters.get "after"
  let merged3 :=
    if pyTruthy stored_after ∧ pyTruthy request_after then
      merged2.set "after"
        (.str (pyMaxStr (pyStr (stored_after.getD .null)) (pyStr (request_after.getD .null))))
    else if pyTruthy request_after then merged2.set "after" (request_after.getD .null)
    else merged2
  let stored_before := stored_filters.get "before"
  let request_before := request_filters.get "before"
  let merged4 :=
    if pyTruthy stored_before ∧ pyTruthy request_before then
      merged3.set "before"
        (.str (pyMinStr (pyStr (stored_before.getD .null)) (pyStr (request_before.getD .null))))
    else if pyTruthy request_before then merged3.set "before" (request_before.getD .null)
    else merged3
  query.set "filters" merged4

/-- The params `_handle_view_query` builds from the merged query
(daemon.py lines 374-397): filters from `merged["filters"]`, `q=None`,
`format="summary"`, and `order = merged.get("order", "desc")` — nothing of
the request reaches `order`. -/
def view_query_params (view_query request_filters : Json) (limit : Nat) : QueryParams :=
  let merged_query := merge_view_filters view_query request_filters
  let f := merged_query.getD "filters" (.obj [])
  { q := .null, types := f.getD "type" .null, tags := f.getD "tag" .null,
    after := f.getD "after" .null, before := f.getD "before" .null,
    limit := limit, format := .str "summary",
    order := merged_query.getD "order" (.str "desc") }

/-- The built-in `timeline` view `_ensure_builtin_views` creates: empty
filters, `desc` order. -/
def timeline_view_query : Json :=
  .obj [("kind", .str "events_query"), ("filters", .obj []), ("order", .str "desc")]

/-! ## Jobs (daemon.py `_execute_job`, `_run_daily_digest`) -/

def pad2 (n : Nat) : String := if n < 10 then "0" ++ toString n else toString n

/-- Decimal digits to a number (the date fields are digit runs). -/
def digitsToNat (cs : List Char) : Nat :=
  cs.foldl (fun acc c => acc * 10 + (c.toNat - 48)) 0

/-- The Gregorian day after a `YYYY-MM-DD` date — what
`date.fromisoformat(day)` plus `timedelta(days=1)` yields. -/
def next_day (day : String) : String :=
  let y := digitsToNat (day.data.take 4)
  let m := digitsToNat ((day.data.drop 5).take 2)
  let d := digitsToNat ((day.data.drop 8).take 2)
  let leap := y % 4 = 0 ∧ (y % 100 ≠ 0 ∨ y % 400 = 0)
  let dim := if m = 2 then (if leap then 29 else 28)
    else if m = 4 ∨ m = 6 ∨ m = 9 ∨ m = 11 then 30 else 31
  if d < dim then toString y ++ "-" ++ pad2 m ++ "-" ++ pad2 (d + 1)
  else if m < 12 then toString y ++ "-" ++ pad2 (m + 1) ++ "-01"
  else toString (y + 1) ++ "-01-01"

/-- The digest window bounds (daemon.py lines 1071-1074):
`datetime.combine(day, min.time()).replace(tzinfo=tz)` and that plus one
day, rendered by `isoformat()`.  For a fixed-offset zone (the default
workspace timezone Asia/Tokyo renders as "+09:00", no DST) that is
`YYYY-MM-DDT00:00:00<offset>`. -/
def digest_window (day offset : String) : String × String :=
  (day ++ "T00:00:00" ++ offset, next_day day ++ "T00:00:00" ++ offset)

/-- The query params `_run_daily_digest` hands `_query_events` (daemon.py
lines 1081-1091): the window merged into the named view's query, limit
500, summary format, the view's order (default desc). -/
def run_daily_digest_params (view_query : Json) (day offset : String) : QueryParams :=
  let w := digest_window day offset
  let merged_query := merge_view_filters view_query
    (.obj [("after", .str w.1), ("before", .str w.2)])
  let f := merged_query.getD "filters" (.obj [])
  { q := .null, types := f.getD "type" .null, tags := f.getD "tag" .null,
    after := f.getD "after" .null, before := f.getD "before" .null,
    limit := 500, format := .str "summary",
    order := merged_query.getD "order" (.str "desc") }

/-- The `kind` dispatch of `_execute_job` (daemon.py lines 1051-1061): a
`daily_digest` branch, an `artifact_pack` branch (their query-building
parts are modelled above), and for every other kind
`raise ValueError(f"Unsupported job kind: {kind}")`.  There is no
`index_rebuild` branch. -/
def execute_job_kind (kind : String) : Except String String :=
  if kind == "daily_digest" then .ok "daily_digest"
  else if kind == "artifact_pack" then .ok "artifact_pack"
  else .error ("Unsupported job kind: " ++ kind)

/-- The status and error `_handle_job_run` records on the `job_runs` row
(daemon.py lines 477-495): "ok" unless `_execute_job` raised, then
"failed" with the exception text. -/
def job_run_status (kind : String) : String × Option String :=
  match execute_job_kind kind with
  | .ok _ => ("ok", none)
  | .error m => ("failed", some m)

/-! ## Concrete inputs used by the closed theorems and witnesses -/

/-- A fault-free environment with a deterministic ULID stream and a fixed
insertion clock. -/
def env0 : IngestEnv :=
  ⟨fun n => "01JD9Z3N4M5P6Q7R8S9T0VWX" ++ pad2 n,
   "2026-01-21T12:00:00+09:00", fun _ => none, fun _ => none⟩

/-- An environment whose index transactions all fail with a sqlite error. -/
def envDbFault : IngestEnv :=
  ⟨fun n => "01JD9Z3N4M5P6Q7R8S9T0VWX" ++ pad2 n,
   "2026-01-21T12:00:00+09:00", fun _ => none,
   fun _ => some "disk I/O error"⟩

/-- A valid chat-message draft (message 0 of a small chat export). -/
def chat_draft_0 : Json :=
  .obj [("schema_version", .str "0.2"), ("ts", .str "2026-01-21T10:00:00+09:00"),
    ("type", .str "chat.message"),
    ("source", .obj [("kind", .str "chat_json_file"), ("locator", .str "/tmp/chat_small.json"),
      ("meta", .obj [])]),
    ("refs", .arr [.obj [("kind", .str "file"), ("uri", .str "file:/tmp/chat_small.json"),
      ("span", .obj [("idx", .num 0)])]]),
    ("tags", .arr [.str "t2", .str "memobird"]), ("text", .str "hello printer"),
    ("payload", .obj [("speaker", .str "user"), ("content", .str "hello printer")])]

/-- A second valid chat-message draft (message 1, different content). -/
def chat_draft_1 : Json :=
  .obj [("schema_version", .str "0.2"), ("ts", .str "2026-01-21T10:00:05+09:00"),
    ("type", .str "chat.message"),
    ("source", .obj [("kind", .str "chat_json_file"), ("locator", .str "/tmp/chat_small.json"),
      ("meta", .obj [])]),
    ("refs", .arr [.obj [("kind", .str "file"), ("uri", .str "file:/tmp/chat_small.json"),
      ("span", .obj [("idx", .num 1)])]]),
    ("tags", .arr [.str "t2", .str "memobird"]), ("text", .str "capture the protocol"),
    ("payload", .obj [("speaker", .str "assistant"), ("content", .str "capture the protocol")])]

/-- A valid draft that is not a chat message (its dedupe key is
uncomputable: `dedupe_key_from_draft` returns `None` for any type other
than `chat.message`). -/
def note_draft : Json :=
  .obj [("schema_version", .str "0.2"), ("ts", .str "2026-01-21T10:01:00+09:00"),
    ("type", .str "note"),
    ("source", .obj [("kind", .str "cli"), ("locator", .str "/tmp/notes.md"),
      ("meta", .obj [])]),
    ("refs", .arr []), ("tags", .arr []), ("text", .str "a note"),
    ("payload", .obj [])]

/-- An indexed chat event whose text contains 调用图 inside a longer CJK
run (the S3 scenario's second message). -/
def zh_row : EventRow :=
  { id := "01JD9Z3N4M5P6Q7R8S9T0VZH01", schema_version := "0.2",
    ts := "2026-01-21T11:00:05+09:00", type := "chat.message",
    tags := .arr [], text := "先做调用图，再做source-sink路径",
    payload := .obj [("speaker", .str "assistant"),
      ("content", .str "先做调用图，再做source-sink路径")],
    source_kind := "chat_json_file", source_locator := "/tmp/chat_small.jsonl",
    source_meta := .obj [], hash_algo := "sha256",
    hash_value := "0000000000000000000000000000000000000000000000000000000000000000",
    dedupe_key := some "1111111111111111111111111111111111111111111111111111111111111111",
    created_at := "2026-01-21T12:00:00+09:00" }

def zh_store : Store := ⟨[], [zh_row], [], []⟩

/-- An FTS oracle under which the MATCH query returns no row — the
situation the unicode61 tokenizer produces for the query 调用图 against
that text (the query token does not equal the indexed CJK run). -/
def ftsNoRows : String → String → Bool := fun _ _ => false

/-- An event row timestamped exactly at the digest window's upper bound
(day+1 00:00 in the workspace timezone). -/
def boundary_row : EventRow :=
  { id := "01JD9Z3N4M5P6Q7R8S9T0VBD01", schema_version := "0.2",
    ts := "2026-01-22T00:00:00+09:00", type := "chat.message",
    tags := .arr [], text := "midnight edge", payload := .obj [],
    source_kind := "chat_json_file", source_locator := "/tmp/chat_small.json",
    source_meta := .obj [], hash_algo := "sha256",
    hash_value := "0000000000000000000000000000000000000000000000000000000000000000",
    dedupe_key := none, created_at := "2026-01-22T00:00:01+09:00" }

/-! ## Dict lemmas and filter-set encodings for the view-merge claim -/

theorem Json.get_set_ne (o : Json) {k k' : String} (v : Json) (h : k ≠ k') :
    (o.set k v).get k' = o.get k' := by
  cases o with
  | obj entries =>
    simp only [Json.set]
    split
    · simp only [Json.get, List.find?_map]
      have hp : ((fun e : String × Json => e.1 == k') ∘
          fun e : String × Json => if e.1 == k then (e.1, v) else e) =
          fun e : String × Json => e.1 == k' := by
        funext e
        by_cases he : e.1 == k <;> simp [he, Function.comp]
      rw [hp]
      cases hf : entries.find? (fun e => e.1 == k') with
      | none => simp
      | some e0 =>
        have he0 : e0.1 = k' := by simpa using List.find?_some hf
        have hne : ¬ e0.1 = k := by
          rw [he0]
          exact fun hc => h hc.symm
        simp [hne]
    · simp only [Json.get, List.find?_append]
      cases hf : entries.find? (fun e => e.1 == k') with
      | none =>
        have : (k == k') = false := by simpa using h
        simp [hf, List.find?, this]
      | some e0 => simp [hf]
  | null => rfl
  | bool b => rfl
  | num n => rfl
  | str s => rfl
  | arr elems => rfl

theorem Json.get_set_self (o : Json) (k : String) (v : Json) (h : o.isObj = true) :
    (o.set k v).get k = some v := by
  cases o with
  | null => simp [Json.isObj] at h
  | bool b => simp [Json.isObj] at h
  | num n => simp [Json.isObj] at h
  | str s => simp [Json.isObj] at h
  | arr elems => simp [Json.isObj] at h
  | obj entries =>
    simp only [Json.set]
    split
    next hany =>
      simp only [Json.get, List.find?_map]
      have hp : ((fun e : String × Json => e.1 == k) ∘
          fun e : String × Json => if e.1 == k then (e.1, v) else e) =
          fun e : String × Json => e.1 == k := by
        funext e
        by_cases he : e.1 == k <;> simp [he, Function.comp]
      rw [hp]
      rw [List.any_eq_true] at hany
      obtain ⟨e0, he0, hk0⟩ := hany
      have hsome : (entries.find? (fun e => e.1 == k)).isSome := by
        rw [List.find?_isSome]
        exact ⟨e0, he0, hk0⟩
      obtain ⟨e1, he1⟩ := Option.isSome_iff_exists.mp hsome
      have hk1 := List.find?_some he1
      simp only [beq_iff_eq] at hk1
      simp [he1, hk1]
    next hany =>
      simp only [Json.get, List.find?_append]
      have hnone : entries.find? (fun e => e.1 == k) = none := by
        rw [List.find?_eq_none]
        intro e he
        rw [List.any_eq_true] at hany
        exact fun hc => hany ⟨e, he, hc⟩
      simp [hnone, List.find?]

theorem Json.set_isObj (o : Json) (k : String) (v : Json) (h : o.isObj = true) :
    (o.set k v).isObj = true := by
  cases o with
  | null => simp [Json.isObj] at h
  | bool b => simp [Json.isObj] at h
  | num n => simp [Json.isObj] at h
  | str s => simp [Json.isObj] at h
  | arr elems => simp [Json.isObj] at h
  | obj entries =>
    simp only [Json.set]
    split <;> rfl

/-- A list of tag/type strings as the JSON array the filters carry. -/
def encStrList (l : List String) : Json := .arr (l.map .str)

/-- A filter set `{type?, tag?, after?, before?}` as the JSON object a
stored view's `filters` member or a request's `filters` body holds. -/
def encFilters (ty tg : Option (List String)) (af bf : Option String) : Json :=
  .obj ((ty.map (fun l => ("type", encStrList l))).toList ++
    (tg.map (fun l => ("tag", encStrList l))).toList ++
    (af.map (fun s => ("after", Json.str s))).toList ++
    (bf.map (fun s => ("before", Json.str s))).toList)

/-- A stored view query `{kind: "events_query", filters, order?}`. -/
def encView (ty tg : Option (List String)) (af bf : Option String)
    (ord : Option String) : Json :=
  .obj ([("kind", Json.str "events_query"), ("filters", encFilters ty tg af bf)] ++
    (ord.map (fun o => ("order", Json.str o))).toList)

/-! The spec's own merge semantics (section 4.E "Saved view merge"),
written from its words, to be compared with the code's
`_merge_view_filters`. -/

/-- Spec: "`type`: if both present, intersection; otherwise whichever is
set" (the intersection keeps the stored order). -/
def spec_merge_type : Option (List String) → Option (List String) → Option (List String)
  | some s, some r => some (s.filter (fun v => v ∈ r))
  | some s, none => some s
  | none, r => r

/-- Spec: "ordered union (de-duplicated by first occurrence)". -/
def spec_ordered_union (s r : List String) : List String :=
  (s ++ r).foldl (fun acc x => if x ∈ acc then acc else acc ++ [x]) []

/-- Spec: "`tag`: if both present, ordered union; otherwise whichever is
set". -/
def spec_merge_tag : Option (List String) → Option (List String) → Option (List String)
  | some s, some r => some (spec_ordered_union s r)
  | some s, none => some s
  | none, r => r

/-- Spec: "`after`: max" (of the ISO strings), otherwise whichever is set. -/
def spec_merge_after : Option String → Option String → Option String
  | some s, some r => some (pyMaxStr s r)
  | some s, none => some s
  | none, r => r

/-- Spec: "`before`: min", otherwise whichever is set. -/
def spec_merge_before : Option String → Option String → Option String
  | some s, some r => some (pyMinStr s r)
  | some s, none => some s
  | none, r => r

theorem get_if_set_other {m : Json} {k k' : String} (h : k ≠ k') {c : Prop} [Decidable c]
    {c2 : Prop} [Decidable c2] {v v2 : Json} :
    (if c then m.set k v else if c2 then m.set k v2 else m).get k' = m.get k' := by
  split
  · exact Json.get_set_ne m v h
  · split
    · exact Json.get_set_ne m v2 h
    · rfl

theorem if_set_isObj {m : Json} {k : String} (h : m.isObj = true) {c : Prop} [Decidable c]
    {c2 : Prop} [Decidable c2] {v v2 : Json} :
    (if c then m.set k v else if c2 then m.set k v2 else m).isObj = true := by
  split
  · exact Json.set_isObj m k v h
  · split
    · exact Json.set_isObj m k v2 h
    · exact h

theorem encFilters_isObj (ty tg : Option (List String)) (af bf : Option String) :
    (encFilters ty tg af bf).isObj = true := rfl

theorem encFilters_get_type (ty tg : Option (List String)) (af bf : Option String) :
    (encFilters ty tg af bf).get "type" = ty.map encStrList := by
  cases ty <;> cases tg <;> cases af <;> cases bf <;> rfl

theorem encFilters_get_tag (ty tg : Option (List String)) (af bf : Option String) :
    (encFilters ty tg af bf).get "tag" = tg.map encStrList := by
  cases ty <;> cases tg <;> cases af <;> cases bf <;> rfl

theorem encFilters_get_after (ty tg : Option (List String)) (af bf : Option String) :
    (encFilters ty tg af bf).get "after" = af.map Json.str := by
  cases ty <;> cases tg <;> cases af <;> cases bf <;> rfl

theorem encFilters_get_before (ty tg : Option (List String)) (af bf : Option String) :
    (encFilters ty tg af bf).get "before" = bf.map Json.str := by
  cases ty <;> cases tg <;> cases af <;> cases bf <;> rfl

theorem encView_isObj (ty tg : Option (List String)) (af bf : Option String)
    (ord : Option String) : (encView ty tg af bf ord).isObj = true := by
  cases ord <;> rfl

theorem encView_get_filters (ty tg : Option (List String)) (af bf : Option String)
    (ord : Option String) :
    (encView ty tg af bf ord).get "filters" = some (encFilters ty tg af bf) := by
  cases ord <;> rfl

theorem encView_get_order (ty tg : Option (List String)) (af bf : Option String)
    (ord : Option String) :
    (encView ty tg af bf ord).get "order" = ord.map Json.str := by
  cases ord <;> rfl

/-- The `if isinstance(..., dict)` guard on the stored filters resolves to
the stored filter object itself for every encoded view. -/
theorem enc_stored_filters (ty tg : Option (List String)) (af bf : Option String)
    (ord : Option String) :
    (if ((encView ty tg af bf ord).getD "filters" (Json.obj [])).isObj = true then
        (encView ty tg af bf ord).getD "filters" (Json.obj []) else Json.obj []) =
      encFilters ty tg af bf := by
  simp [Json.getD, encView_get_filters, encFilters_isObj]

/-- `request_filters or {}` resolves to the request filter object itself:
a falsy filter object is exactly the empty object. -/
theorem enc_request_filters (ty tg : Option (List String)) (af bf : Option String) :
    (if (encFilters ty tg af bf).truthy = true then encFilters ty tg af bf else Json.obj []) =
      encFilters ty tg af bf := by
  by_cases h : (encFilters ty tg af bf).truthy = true
  · rw [if_pos h]
  · rw [if_neg h]
    cases ty <;> cases tg <;> cases af <;> cases bf <;> first | rfl | exact absurd rfl h

theorem jList_enc (l : List String) : jList (encStrList l) = l.map Json.str := rfl

theorem pyTruthy_encStrList {l : List String} (h : l ≠ []) :
    pyTruthy (some (encStrList l)) = true := by
  cases l with
  | nil => exact absurd rfl h
  | cons x xs => rfl

theorem pyTruthy_some_str {s : String} (h : s ≠ "") :
    pyTruthy (some (Json.str s)) = true := by
  simp [pyTruthy, Json.truthy, h]

theorem presentNotNone_encStrList (l : List String) :
    presentNotNone (some (encStrList l)) = true := rfl

/-- Filtering a string list lifted into JSON by membership in another
lifted list is the lifted filtered list. -/
theorem filter_mem_map_str (s r : List String) :
    List.filter (fun v => v ∈ r.map Json.str) (s.map Json.str) =
      (s.filter (fun v => v ∈ r)).map Json.str := by
  induction s with
  | nil => rfl
  | cons x xs ih =>
    simp only [List.map_cons, List.filter_cons]
    by_cases hx : x ∈ r
    · have h1 : Json.str x ∈ r.map Json.str := List.mem_map_of_mem _ hx
      rw [if_pos (decide_eq_true h1), if_pos (decide_eq_true hx), List.map_cons, ih]
    · have h1 : Json.str x ∉ r.map Json.str := by
        intro hc
        obtain ⟨y, hy, he⟩ := List.mem_map.mp hc
        rw [Json.str.injEq] at he
        exact hx (he ▸ hy)
      have hd1 : ¬ decide (Json.str x ∈ r.map Json.str) = true := by simpa using h1
      have hd2 : ¬ decide (x ∈ r) = true := by simpa using hx
      rw [if_neg hd1, if_neg hd2, ih]

theorem foldl_union_map_str (l : List String) (acc : List String) :
    List.foldl (fun merged item => if item ∈ merged then merged else merged ++ [item])
        (acc.map Json.str) (l.map Json.str) =
      (List.foldl (fun a x => if x ∈ a then a else a ++ [x]) acc l).map Json.str := by
  induction l generalizing acc with
  | nil => rfl
  | cons x xs ih =>
    simp only [List.map_cons, List.foldl_cons]
    by_cases hx : x ∈ acc
    · have h1 : Json.str x ∈ acc.map Json.str := List.mem_map_of_mem _ hx
      rw [if_pos h1, if_pos hx, ih]
    · have h1 : Json.str x ∉ acc.map Json.str := by
        intro hc
        obtain ⟨y, hy, he⟩ := List.mem_map.mp hc
        rw [Json.str.injEq] at he
        exact hx (he ▸ hy)
      rw [if_neg h1, if_neg hx]
      have h2 : acc.map Json.str ++ [Json.str x] = (acc ++ [x]).map Json.str := by simp
      rw [h2, ih]

/-- `_merge_tags` on lifted string lists is the spec's ordered union,
lifted. -/
theorem merge_tags_map_str (s r : List String) :
    merge_tags (s.map Json.str) (r.map Json.str) = (spec_ordered_union s r).map Json.str := by
  unfold merge_tags spec_ordered_union
  rw [← List.map_append]
  exact foldl_union_map_str (s ++ r) []

/-- The merged `type` member follows the spec rule (intersection in stored
order when both are set, otherwise whichever is set) for every encoded
stored view and request, with the nonempty type lists real filters carry. -/
theorem merged_enc_get_type (tyS tgS tyR tgR : Option (List String))
    (afS bfS afR bfR ordS : Option String)
    (hS : ∀ l, tyS = some l → l ≠ []) (hR : ∀ l, tyR = some l → l ≠ []) :
    ((merge_view_filters (encView tyS tgS afS bfS ordS)
        (encFilters tyR tgR afR bfR)).getD "filters" (Json.obj [])).get "type" =
      (spec_merge_type tyS tyR).map encStrList := by
  simp only [merge_view_filters]
  rw [enc_stored_filters tyS tgS afS bfS ordS, enc_request_filters tyR tgR afR bfR,
    encFilters_get_type tyS tgS afS bfS, encFilters_get_type tyR tgR afR bfR,
    encFilters_get_tag tyS tgS afS bfS, encFilters_get_tag tyR tgR afR bfR,
    encFilters_get_after tyS tgS afS bfS, encFilters_get_after tyR tgR afR bfR,
    encFilters_get_before tyS tgS afS bfS, encFilters_get_before tyR tgR afR bfR]
  simp only [Json.getD]
  rw [Json.get_set_self _ _ _ (encView_isObj tyS tgS afS bfS ordS)]
  simp only [Option.getD_some]
  rw [get_if_set_other (show ("before" : String) ≠ "type" by decide),
    get_if_set_other (show ("after" : String) ≠ "type" by decide),
    get_if_set_other (show ("tag" : String) ≠ "type" by decide)]
  cases tyS with
  | some s =>
    have hs : s ≠ [] := hS s rfl
    cases tyR with
    | some r =>
      have hr : r ≠ [] := hR r rfl
      simp only [Option.map]
      rw [if_pos ⟨pyTruthy_encStrList hs, pyTruthy_encStrList hr⟩,
        Json.get_set_self _ _ _ (encFilters_isObj (some s) tgS afS bfS)]
      simp only [Option.getD]
      simp only [jList_enc]
      rw [filter_mem_map_str s r]
      simp only [spec_merge_type, Option.map, encStrList]
    | none =>
      simp only [Option.map]
      rw [if_neg (show ¬ (pyTruthy (some (encStrList s)) = true ∧
          pyTruthy (none : Option Json) = true) from fun h => absurd h.2 (by decide))]
      rw [if_neg (show ¬ presentNotNone (none : Option Json) = true by decide)]
      rw [encFilters_get_type (some s) tgS afS bfS]
      simp only [spec_merge_type, Option.map]
  | none =>
    cases tyR with
    | some r =>
      simp only [Option.map]
      rw [if_neg (show ¬ (pyTruthy (none : Option Json) = true ∧
          pyTruthy (some (encStrList r)) = true) from fun h => absurd h.1 (by decide))]
      rw [if_pos (presentNotNone_encStrList r)]
      rw [Json.get_set_self _ _ _ (encFilters_isObj none tgS afS bfS)]
      simp only [Option.getD, spec_merge_type, Option.map]
    | none =>
      simp only [Option.map]
      rw [if_neg (show ¬ (pyTruthy (none : Option Json) = true ∧
          pyTruthy (none : Option Json) = true) from fun h => absurd h.1 (by decide))]
      rw [if_neg (show ¬ presentNotNone (none : Option Json) = true by decide)]
      rw [encFilters_get_type none tgS afS bfS]
      rfl

/-- The merged `tag` member follows the spec rule (ordered union
de-duplicated by first occurrence when both are set, otherwise whichever
is set). -/
theorem merged_enc_get_tag (tyS tgS tyR tgR : Option (List String))
    (afS bfS afR bfR ordS : Option String)
    (hS : ∀ l, tgS = some l → l ≠ []) (hR : ∀ l, tgR = some l → l ≠ []) :
    ((merge_view_filters (encView tyS tgS afS bfS ordS)
        (encFilters tyR tgR afR bfR)).getD "filters" (Json.obj [])).get "tag" =
      (spec_merge_tag tgS tgR).map encStrList := by
  simp only [merge_view_filters]
  rw [enc_stored_filters tyS tgS afS bfS ordS, enc_request_filters tyR tgR afR bfR,
    encFilters_get_type tyS tgS afS bfS, encFilters_get_type tyR tgR afR bfR,
    encFilters_get_tag tyS tgS afS bfS, encFilters_get_tag tyR tgR afR bfR,
    encFilters_get_after tyS tgS afS bfS, encFilters_get_after tyR tgR afR bfR,
    encFilters_get_before tyS tgS afS bfS, encFilters_get_before tyR tgR afR bfR]
  simp only [Json.getD]
  rw [Json.get_set_self _ _ _ (encView_isObj tyS tgS afS bfS ordS)]
  simp only [Option.getD_some]
  rw [get_if_set_other (show ("before" : String) ≠ "tag" by decide),
    get_if_set_other (show ("after" : String) ≠ "tag" by decide)]
  cases tgS with
  | some s =>
    have hs : s ≠ [] := hS s rfl
    cases tgR with
    | some r =>
      have hr : r ≠ [] := hR r rfl
      simp only [Option.map]
      rw [if_pos ⟨pyTruthy_encStrList hs, pyTruthy_encStrList hr⟩,
        Json.get_set_self _ _ _ (if_set_isObj (encFilters_isObj tyS (some s) afS bfS))]
      simp only [Option.getD]
      simp only [jList_enc]
      rw [merge_tags_map_str s r]
      simp only [spec_merge_tag, Option.map, encStrList]
    | none =>
      simp only [Option.map]
      rw [if_neg (show ¬ (pyTruthy (some (encStrList s)) = true ∧
          pyTruthy (none : Option Json) = true) from fun h => absurd h.2 (by decide))]
      rw [if_neg (show ¬ presentNotNone (none : Option Json) = true by decide)]
      rw [get_if_set_other (show ("type" : String) ≠ "tag" by decide)]
      rw [encFilters_get_tag tyS (some s) afS bfS]
      simp only [spec_merge_tag, Option.map]
  | none =>
    cases tgR with
    | some r =>
      simp only [Option.map]
      rw [if_neg (show ¬ (pyTruthy (none : Option Json) = true ∧
          pyTruthy (some (encStrList r)) = true) from fun h => absurd h.1 (by decide))]
      rw [if_pos (presentNotNone_encStrList r)]
      rw [Json.get_set_self _ _ _ (if_set_isObj (encFilters_isObj tyS none afS bfS))]
      simp only [Option.getD, spec_merge_tag, Option.map]
    | none =>
      simp only [Option.map]
      rw [if_neg (show ¬ (pyTruthy (none : Option Json) = true ∧
          pyTruthy (none : Option Json) = true) from fun h => absurd h.1 (by decide))]
      rw [if_neg (show ¬ presentNotNone (none : Option Json) = true by decide)]
      rw [get_if_set_other (show ("type" : String) ≠ "tag" by decide)]
      rw [encFilters_get_tag tyS none afS bfS]
      rfl

/-- The merged `after` bound is the max of the two bounds when both are
set, otherwise whichever is set (nonempty strings, as real bounds are). -/
theorem merged_enc_get_after (tyS tgS tyR tgR : Option (List String))
    (afS bfS afR bfR ordS : Option String)
    (hS : ∀ s, afS = some s → s ≠ "") (hR : ∀ s, afR = some s → s ≠ "") :
    ((merge_view_filters (encView tyS tgS afS bfS ordS)
        (encFilters tyR tgR afR bfR)).getD "filters" (Json.obj [])).get "after" =
      (spec_merge_after afS afR).map Json.str := by
  simp only [merge_view_filters]
  rw [enc_stored_filters tyS tgS afS bfS ordS, enc_request_filters tyR tgR afR bfR,
    encFilters_get_type tyS tgS afS bfS, encFilters_get_type tyR tgR afR bfR,
    encFilters_get_tag tyS tgS afS bfS, encFilters_get_tag tyR tgR afR bfR,
    encFilters_get_after tyS tgS afS bfS, encFilters_get_after tyR tgR afR bfR,
    encFilters_get_before tyS tgS afS bfS, encFilters_get_before tyR tgR afR bfR]
  simp only [Json.getD]
  rw [Json.get_set_self _ _ _ (encView_isObj tyS tgS afS bfS ordS)]
  simp only [Option.getD_some]
  rw [get_if_set_other (show ("before" : String) ≠ "after" by decide)]
  cases afS with
  | some a =>
    have ha : a ≠ "" := hS a rfl
    cases afR with
    | some b =>
      have hb : b ≠ "" := hR b rfl
      simp only [Option.map]
      rw [if_pos ⟨pyTruthy_some_str ha, pyTruthy_some_str hb⟩,
        Json.get_set_self _ _ _
          (if_set_isObj (if_set_isObj (encFilters_isObj tyS tgS (some a) bfS)))]
      simp only [Option.getD, pyStr, spec_merge_after, Option.map]
    | none =>
      simp only [Option.map]
      rw [if_neg (show ¬ (pyTruthy (some (Json.str a)) = true ∧
          pyTruthy (none : Option Json) = true) from fun h => absurd h.2 (by decide))]
      rw [if_neg (show ¬ pyTruthy (none : Option Json) = true by decide)]
      rw [get_if_set_other (show ("tag" : String) ≠ "after" by decide),
        get_if_set_other (show ("type" : String) ≠ "after" by decide)]
      rw [encFilters_get_after tyS tgS (some a) bfS]
      simp only [spec_merge_after, Option.map]
  | none =>
    cases afR with
    | some b =>
      have hb : b ≠ "" := hR b rfl
      simp only [Option.map]
      rw [if_neg (show ¬ (pyTruthy (none : Option Json) = true ∧
          pyTruthy (some (Json.str b)) = true) from fun h => absurd h.1 (by decide))]
      rw [if_pos (pyTruthy_some_str hb)]
      rw [Json.get_set_self _ _ _
        (if_set_isObj (if_set_isObj (encFilters_isObj tyS tgS none bfS)))]
      simp only [Option.getD, spec_merge_after, Option.map]
    | none =>
      simp only [Option.map]
      rw [if_neg (show ¬ (pyTruthy (none : Option Json) = true ∧
          pyTruthy (none : Option Json) = true) from fun h => absurd h.1 (by decide))]
      rw [if_neg (show ¬ pyTruthy (none : Option Json) = true by decide)]
      rw [get_if_set_other (show ("tag" : String) ≠ "after" by decide),
        get_if_set_other (show ("type" : String) ≠ "after" by decide)]
      rw [encFilters_get_after tyS tgS none bfS]
      rfl

/-- The merged `before` bound is the min of the two bounds when both are
set, otherwise whichever is set. -/
theorem merged_enc_get_before (tyS tgS tyR tgR : Option (List String))
    (afS bfS afR bfR ordS : Option String)
    (hS : ∀ s, bfS = some s → s ≠ "") (hR : ∀ s, bfR = some s → s ≠ "") :
    ((merge_view_filters (encView tyS tgS afS bfS ordS)
        (encFilters tyR tgR afR bfR)).getD "filters" (Json.obj [])).get "before" =
      (spec_merge_before bfS bfR).map Json.str := by
  simp only [merge_view_filters]
  rw [enc_stored_filters tyS tgS afS bfS ordS, enc_request_filters tyR tgR afR bfR,
    encFilters_get_type tyS tgS afS bfS, encFilters_get_type tyR tgR afR bfR,
    encFilters_get_tag tyS tgS afS bfS, encFilters_get_tag tyR tgR afR bfR,
    encFilters_get_after tyS tgS afS bfS, encFilters_get_after tyR tgR afR bfR,
    encFilters_get_before tyS tgS afS bfS, encFilters_get_before tyR tgR afR bfR]
  simp only [Json.getD]
  rw [Json.get_set_self _ _ _ (encView_isObj tyS tgS afS bfS ordS)]
  simp only [Option.getD_some]
  cases bfS with
  | some a =>
    have ha : a ≠ "" := hS a rfl
    cases bfR with
    | some b =>
      have hb : b ≠ "" := hR b rfl
      simp only [Option.map]
      rw [if_pos ⟨pyTruthy_some_str ha, pyTruthy_some_str hb⟩,
        Json.get_set_self _ _ _
          (if_set_isObj (if_set_isObj (if_set_isObj (encFilters_isObj tyS tgS afS (some a)))))]
      simp only [Option.getD, pyStr, spec_merge_before, Option.map]
    | none =>
      simp only [Option.map]
      rw [if_neg (show ¬ (pyTruthy (some (Json.str a)) = true ∧
          pyTruthy (none : Option Json) = true) from fun h => absurd h.2 (by decide))]
      rw [if_neg (show ¬ pyTruthy (none : Option Json) = true by decide)]
      rw [get_if_set_other (show ("after" : String) ≠ "before" by decide),
        get_if_set_other (show ("tag" : String) ≠ "before" by decide),
        get_if_set_other (show ("type" : String) ≠ "before" by decide)]
      rw [encFilters_get_before tyS tgS afS (some a)]
      simp only [spec_merge_before, Option.map]
  | none =>
    cases bfR with
    | some b =>
      have hb : b ≠ "" := hR b rfl
      simp only [Option.map]
      rw [if_neg (show ¬ (pyTruthy (none : Option Json) = true ∧
          pyTruthy (some (Json.str b)) = true) from fun h => absurd h.1 (by decide))]
      rw [if_pos (pyTruthy_some_str hb)]
      rw [Json.get_set_self _ _ _
        (if_set_isObj (if_set_isObj (if_set_isObj (encFilters_isObj tyS tgS afS none))))]
      simp only [Option.getD, spec_merge_before, Option.map]
    | none =>
      simp only [Option.map]
      rw [if_neg (show ¬ (pyTruthy (none : Option Json) = true ∧
          pyTruthy (none : Option Json) = true) from fun h => absurd h.1 (by decide))]
      rw [if_neg (show ¬ pyTruthy (none : Option Json) = true by decide)]
      rw [get_if_set_other (show ("after" : String) ≠ "before" by decide),
        get_if_set_other (show ("tag" : String) ≠ "before" by decide),
        get_if_set_other (show ("type" : String) ≠ "before" by decide)]
      rw [encFilters_get_before tyS tgS afS none]
      rfl

/-- Whatever the request carries, the merged query's `order` is the stored
view's `order` (default `desc`): `_merge_view_filters` only replaces
`filters`. -/
theorem merged_enc_order (tyS tgS : Option (List String)) (afS bfS : Option String)
    (ordS : Option String) (R : Json) :
    (merge_view_filters (encView tyS tgS afS bfS ordS) R).getD "order" (Json.str "desc") =
      Json.str (ordS.getD "desc") := by
  simp only [merge_view_filters]
  simp only [Json.getD]
  rw [Json.get_set_ne _ _ (show ("filters" : String) ≠ "order" by decide),
    encView_get_order tyS tgS afS bfS ordS]
  cases ordS <;> rfl

/-! ## Support lemmas for the dedupe-idempotence proof -/

theorem sha256_hex_ne_empty (data : List Nat) : sha256_hex data ≠ "" := by
  intro h
  have hl := congrArg String.length h
  simp only [sha256_hex, wordBytes, List.cons_append, hexOfBytes, hexByte,
    String.length_append] at hl
  simp [String.length] at hl

theorem dedupe_key_ne_empty (a l : String) (i : Json) (c : String) :
    dedupe_key a l i c ≠ "" := by
  unfold dedupe_key
  exact sha256_hex_ne_empty _

theorem dedupe_key_from_draft_ne_empty {d : Json} {k : String}
    (h : dedupe_key_from_draft d = some k) : k ≠ "" := by
  unfold dedupe_key_from_draft at h
  dsimp only at h
  split at h
  next => simp at h
  next =>
    split at h
    next => simp at h
    next =>
      split at h
      next => simp at h
      next => simp at h
      next idxv =>
        split at h
        next => simp at h
        next =>
          have hk := Option.some.inj h
          rw [← hk]
          exact dedupe_key_ne_empty _ _ _ _

/-- The outcome update of one inserted draft (the `inserted += 1` tail of
the loop body). -/
def outcome_after_insert (evId : String) (dk : Option String) (hashv : Json)
    (o : IngestOutcome) : IngestOutcome :=
  { o with
    new := o.new + 1
    results := Json.obj [("status", .str "inserted"), ("event_id", .str evId),
      ("dedupe_key", keyJson dk), ("hash", hashv)] :: o.results
    ids := evId :: o.ids }

/-- The outcome update of one skipped draft. -/
def outcome_after_skip (drow : DedupeRow) (dk : Option String)
    (o : IngestOutcome) : IngestOutcome :=
  { o with
    skipped := o.skipped + 1
    results := Json.obj [("status", .str "skipped"),
      ("existing_event_id", .str drow.event_id),
      ("dedupe_key", keyJson dk)] :: o.results }

theorem outcome_after_insert_proj (evId dk hashv o) :
    (outcome_after_insert evId dk hashv o).new = o.new + 1 ∧
    (outcome_after_insert evId dk hashv o).skipped = o.skipped ∧
    (outcome_after_insert evId dk hashv o).failed = o.failed ∧
    (outcome_after_insert evId dk hashv o).aborted = o.aborted ∧
    (outcome_after_insert evId dk hashv o).store = o.store :=
  ⟨rfl, rfl, rfl, rfl, rfl⟩

theorem outcome_after_skip_proj (drow dk o) :
    (outcome_after_skip drow dk o).new = o.new ∧
    (outcome_after_skip drow dk o).skipped = o.skipped + 1 ∧
    (outcome_after_skip drow dk o).failed = o.failed ∧
    (outcome_after_skip drow dk o).aborted = o.aborted ∧
    (outcome_after_skip drow dk o).store = o.store :=
  ⟨rfl, rfl, rfl, rfl, rfl⟩

/-- One loop iteration over a valid draft with a truthy dedupe key absent
from `dedupe`, fault-free: insert and continue on the grown store. -/
theorem ingest_loop_cons_insert (env : IngestEnv) (d : Json) (rest : List Json)
    (st : Store) (n : Nat) (k : String)
    (hv : validate_draft d = none)
    (hkk : dedupe_key_from_draft d = some k)
    (hkne : k ≠ "")
    (hfind : st.dedupe.find? (fun r => some r.dedupe_key == some k) = none)
    (ha : env.appendOsError (built_event d (env.ulids n) (some k)) = none)
    (hd : env.sqliteError (built_event d (env.ulids n) (some k)) = none) :
    ingest_loop env true false (d :: rest) st n =
      outcome_after_insert (env.ulids n) (some k)
        (event_hash (.obj (event_core_entries d)) |>.getD "value" .null)
        (ingest_loop env true false rest
          (inserted_store (built_event d (env.ulids n) (some k)) (some k) env.now
            { st with log := st.log ++ [built_event d (env.ulids n) (some k)] })
          (n + 1)) := by
  simp only [ingest_loop, hv, hkk, pyTruthyStr, hfind, append_event, ha, insert_event,
    hd, outcome_after_insert]
  simp [hkne]

/-- One loop iteration over a valid draft whose truthy dedupe key already
has a `dedupe` row: skip, store unchanged. -/
theorem ingest_loop_cons_skip (env : IngestEnv) (d : Json) (rest : List Json)
    (st : Store) (n : Nat) (k : String) (drow : DedupeRow)
    (hv : validate_draft d = none)
    (hkk : dedupe_key_from_draft d = some k)
    (hkne : k ≠ "")
    (hfind : st.dedupe.find? (fun r => some r.dedupe_key == some k) = some drow) :
    ingest_loop env true false (d :: rest) st n =
      outcome_after_skip drow (some k) (ingest_loop env true false rest st n) := by
  simp only [ingest_loop, hv, hkk, pyTruthyStr, hfind, outcome_after_skip]
  simp [hkne]

/-- A fault-free run over valid drafts with pairwise-distinct computable
dedupe keys, none of them in `dedupe` yet: every draft inserts. -/
theorem ingest_loop_fresh (env : IngestEnv)
    (happend : ∀ ev, env.appendOsError ev = none)
    (hdb : ∀ ev, env.sqliteError ev = none) :
    ∀ (drafts : List Json) (st : Store) (n : Nat),
    (∀ d ∈ drafts, validate_draft d = none) →
    (∀ d ∈ drafts, (dedupe_key_from_draft d).isSome) →
    (drafts.map dedupe_key_from_draft).Nodup →
    (∀ d ∈ drafts, ∀ r ∈ st.dedupe, some r.dedupe_key ≠ dedupe_key_from_draft d) →
    (ingest_loop env true false drafts st n).new = drafts.length ∧
    (ingest_loop env true false drafts st n).skipped = 0 ∧
    (ingest_loop env true false drafts st n).failed = 0 ∧
    (ingest_loop env true false drafts st n).aborted = none ∧
    (ingest_loop env true false drafts st n).store.log.length =
      st.log.length + drafts.length ∧
    (ingest_loop env true false drafts st n).store.dedupe.map (fun r => some r.dedupe_key) =
      st.dedupe.map (fun r => some r.dedupe_key) ++ drafts.map dedupe_key_from_draft := by
  intro drafts
  induction drafts with
  | nil =>
    intro st n _ _ _ _
    simp [ingest_loop]
  | cons d rest ih =>
    intro st n hv hks hnd hfr
    obtain ⟨k, hkk⟩ := Option.isSome_iff_exists.mp (hks d (List.mem_cons_self d rest))
    have hkne : k ≠ "" := dedupe_key_from_draft_ne_empty hkk
    have hfind : st.dedupe.find? (fun r => some r.dedupe_key == some k) = none := by
      rw [List.find?_eq_none]
      intro r hr
      have := hfr d (List.mem_cons_self d rest) r hr
      rw [hkk] at this
      simpa using this
    have hany : st.dedupe.any (fun r => r.dedupe_key == k) = false := by
      rw [List.any_eq_false]
      intro r hr
      have := hfr d (List.mem_cons_self d rest) r hr
      rw [hkk] at this
      simpa using this
    rw [ingest_loop_cons_insert env d rest st n k (hv d (List.mem_cons_self d rest))
      hkk hkne hfind (happend _) (hdb _)]
    set ev := built_event d (env.ulids n) (some k) with hev
    set st2 := inserted_store ev (some k) env.now { st with log := st.log ++ [ev] } with hst2
    have hst2log : st2.log.length = st.log.length + 1 := by
      rw [hst2, inserted_store_log]
      simp
    have hst2ded : st2.dedupe = st.dedupe ++ [⟨k, jstr ev "id", jstr ev "ts"⟩] := by
      rw [hst2]
      exact inserted_store_dedupe_fresh ev k env.now _ hkne hany
    obtain ⟨ih1, ih2, ih3, ih4, ih5, ih6⟩ := ih st2 (n + 1)
      (fun d' hd' => hv d' (List.mem_cons_of_mem _ hd'))
      (fun d' hd' => hks d' (List.mem_cons_of_mem _ hd'))
      ((List.nodup_cons.mp hnd).2)
      (by
        intro d' hd' r hr
        rw [hst2ded] at hr
        rcases List.mem_append.mp hr with hr | hr
        · exact hfr d' (List.mem_cons_of_mem _ hd') r hr
        · have hrk : r.dedupe_key = k := by
            simp only [List.mem_singleton] at hr
            rw [hr]
          intro hcontra
          rw [hrk] at hcontra
          apply (List.nodup_cons.mp hnd).1
          rw [hkk, hcontra]
          exact List.mem_map_of_mem dedupe_key_from_draft hd')
    refine ⟨?_, ?_, ?_, ?_, ?_, ?_⟩
    · simp only [outcome_after_insert]
      rw [ih1]
      simp
    · simpa only [outcome_after_insert] using ih2
    · simpa only [outcome_after_insert] using ih3
    · simpa only [outcome_after_insert] using ih4
    · simp only [outcome_after_insert]
      rw [ih5, hst2log]
      simp
      omega
    · simp only [outcome_after_insert]
      rw [ih6, hst2ded]
      simp only [List.map_append, List.map_cons, List.map_nil, List.append_assoc,
        List.cons_append, List.nil_append, hkk]

/-- A run over valid drafts with computable dedupe keys that all already
have `dedupe` rows: every draft is skipped and the store is untouched. -/
theorem ingest_loop_all_dup (env : IngestEnv) :
    ∀ (drafts : List Json) (st : Store) (n : Nat),
    (∀ d ∈ drafts, validate_draft d = none) →
    (∀ d ∈ drafts, (dedupe_key_from_draft d).isSome) →
    (∀ d ∈ drafts, ∀ k, dedupe_key_from_draft d = some k →
      ∃ r ∈ st.dedupe, r.dedupe_key = k) →
    (ingest_loop env true false drafts st n).store = st ∧
    (ingest_loop env true false drafts st n).new = 0 ∧
    (ingest_loop env true false drafts st n).skipped = drafts.length ∧
    (ingest_loop env true false drafts st n).failed = 0 ∧
    (ingest_loop env true false drafts st n).aborted = none := by
  intro drafts
  induction drafts with
  | nil =>
    intro st n _ _ _
    simp [ingest_loop]
  | cons d rest ih =>
    intro st n hv hks hdup
    obtain ⟨k, hkk⟩ := Option.isSome_iff_exists.mp (hks d (List.mem_cons_self d rest))
    have hkne : k ≠ "" := dedupe_key_from_draft_ne_empty hkk
    obtain ⟨r0, hr0mem, hr0key⟩ := hdup d (List.mem_cons_self d rest) k hkk
    have hfindsome : (st.dedupe.find? (fun r => some r.dedupe_key == some k)).isSome := by
      rw [List.find?_isSome]
      exact ⟨r0, hr0mem, by simp [hr0key]⟩
    obtain ⟨drow, hdrow⟩ := Option.isSome_iff_exists.mp hfindsome
    rw [ingest_loop_cons_skip env d rest st n k drow (hv d (List.mem_cons_self d rest))
      hkk hkne hdrow]
    obtain ⟨ih1, ih2, ih3, ih4, ih5⟩ := ih st n
      (fun d' hd' => hv d' (List.mem_cons_of_mem _ hd'))
      (fun d' hd' => hks d' (List.mem_cons_of_mem _ hd'))
      (fun d' hd' => hdup d' (List.mem_cons_of_mem _ hd'))
    refine ⟨?_, ?_, ?_, ?_, ?_⟩
    · simpa only [outcome_after_skip] using ih1
    · simpa only [outcome_after_skip] using ih2
    · simp only [outcome_after_skip]
      rw [ih3]
      simp
    · simpa only [outcome_after_skip] using ih4
    · simpa only [outcome_after_skip] using ih5

/-! ## Value equality of JSON trees and the hash (events.py `event_hash`) -/

/-- Well-formed JSON values: every object's keys are pairwise distinct, as
the values `json.loads` decodes (and the dicts the pipeline builds) always
are. -/
inductive Wf : Json → Prop
  | null : Wf .null
  | bool (b : Bool) : Wf (.bool b)
  | num (n : Int) : Wf (.num n)
  | str (s : String) : Wf (.str s)
  | arr {elems : List Json} : (∀ x ∈ elems, Wf x) → Wf (.arr elems)
  | obj {entries : List (String × Json)} : (entries.map Prod.fst).Nodup →
      (∀ e ∈ entries, Wf e.2) → Wf (.obj entries)

/-- Equality of JSON values: scalars equal, arrays pointwise equal,
objects equal as key-value maps — the entries of one are, key for key and
equivalent value for value, a permutation of the entries of the other. -/
inductive JEqv : Json → Json → Prop
  | null : JEqv .null .null
  | bool (b : Bool) : JEqv (.bool b) (.bool b)
  | num (n : Int) : JEqv (.num n) (.num n)
  | str (s : String) : JEqv (.str s) (.str s)
  | arr {fs gs : List Json} : List.Forall₂ JEqv fs gs → JEqv (.arr fs) (.arr gs)
  | obj {fs gs hs : List (String × Json)} :
      fs.map Prod.fst = hs.map Prod.fst →
      List.Forall₂ JEqv (fs.map Prod.snd) (hs.map Prod.snd) →
      hs.Perm gs → JEqv (.obj fs) (.obj gs)

theorem attach_map_fn {α : Type} {β : Type} (l : List α) (f : α → β) :
    l.attach.map (fun x => f x.1) = l.map f :=
  List.attach_map_coe l f

theorem canon_arr (elems : List Json) : canon (.arr elems) = .arr (elems.map canon) := by
  simp only [canon]
  rw [attach_map_fn elems canon]

theorem canon_obj (entries : List (String × Json)) :
    canon (.obj entries) =
      .obj (List.insertionSort keyLe (entries.map (fun e => (e.1, canon e.2)))) := by
  simp only [canon]
  rw [attach_map_fn entries (fun e => (e.1, canon e.2))]

/-- The strict key order: sorted lists with pairwise-distinct keys are
sorted for it, and it is (vacuously) antisymmetric, so two sorted
permutations of each other coincide. -/
def keyLt (a b : String × Json) : Prop := a.1 < b.1

instance : IsTotal (String × Json) keyLe := ⟨fun a b => le_total a.1 b.1⟩

instance : IsTrans (String × Json) keyLe := ⟨fun _ _ _ h1 h2 => le_trans h1 h2⟩

instance : IsAntisymm (String × Json) keyLt :=
  ⟨fun _ _ h1 h2 => absurd (lt_trans h1 h2) (lt_irrefl _)⟩

theorem sorted_keyLt_of_sorted_keyLe {l : List (String × Json)}
    (hs : List.Sorted keyLe l) (hn : (l.map Prod.fst).Nodup) :
    List.Sorted keyLt l := by
  have hne : List.Pairwise (fun a b : String × Json => a.1 ≠ b.1) l :=
    List.pairwise_map.mp hn
  exact List.Pairwise.imp (fun h => lt_of_le_of_ne h.1 h.2) (hs.and hne)

theorem nodup_keys_insertionSort (L : List (String × Json))
    (h : (L.map Prod.fst).Nodup) :
    ((List.insertionSort keyLe L).map Prod.fst).Nodup := by
  have hp : (List.insertionSort keyLe L).Perm L := List.perm_insertionSort keyLe L
  exact ((hp.map Prod.fst).nodup_iff).mpr h

theorem one_le_sizeOf_json (a : Json) : 1 ≤ sizeOf a := by
  cases a <;> simp

/-- Canonicalization (recursive key sort) maps value-equal well-formed
JSON trees to the same tree: fuel-indexed induction on the size of the
left tree. -/
theorem canon_eq_of_jeqv_fuel :
    ∀ n : Nat, ∀ a b : Json, sizeOf a ≤ n → Wf a → Wf b → JEqv a b → canon a = canon b := by
  intro n
  induction n with
  | zero =>
    intro a b hsz _ _ _
    exact absurd (le_trans (one_le_sizeOf_json a) hsz) (by decide)
  | succ n ih =>
    intro a b hsz hwa hwb h
    cases h with
    | null => rfl
    | bool b => rfl
    | num m => rfl
    | str s => rfl
    | @arr fs gs hf =>
      cases hwa with | arr hwfa =>
      cases hwb with | arr hwfb =>
      rw [canon_arr, canon_arr]
      have hsfs : ∀ x ∈ fs, sizeOf x ≤ n := by
        intro x hx
        have h1 := List.sizeOf_lt_of_mem hx
        have h2 : sizeOf (Json.arr fs) = 1 + sizeOf fs := by simp
        omega
      have key : ∀ (fs' gs' : List Json), List.Forall₂ JEqv fs' gs' →
          (∀ x ∈ fs', Wf x) → (∀ y ∈ gs', Wf y) → (∀ x ∈ fs', sizeOf x ≤ n) →
          fs'.map canon = gs'.map canon := by
        intro fs' gs' hf'
        induction hf' with
        | nil => intro _ _ _; rfl
        | @cons x y xs ys h1 h2 ihf =>
          intro hwx hwy hsx
          simp only [List.map_cons]
          rw [ih x y (hsx x (List.mem_cons_self x xs)) (hwx x (List.mem_cons_self x xs))
              (hwy y (List.mem_cons_self y ys)) h1,
            ihf (fun u hu => hwx u (List.mem_cons_of_mem x hu))
              (fun u hu => hwy u (List.mem_cons_of_mem y hu))
              (fun u hu => hsx u (List.mem_cons_of_mem x hu))]
      rw [key fs gs hf hwfa hwfb hsfs]
    | @obj fs gs hs hkeys hvals hperm =>
      cases hwa with | obj hna hwfa =>
      cases hwb with | obj hnb hwfb =>
      rw [canon_obj, canon_obj]
      have hsfs : ∀ e ∈ fs, sizeOf e.2 ≤ n := by
        intro e he
        have h1 := List.sizeOf_lt_of_mem he
        have h2 : sizeOf (Json.obj fs) = 1 + sizeOf fs := by simp
        have h3 : sizeOf e.2 < sizeOf e := by
          cases e with | mk u v => simp
        omega
      have hwhs : ∀ e ∈ hs, Wf e.2 := fun e he => hwfb e (hperm.subset he)
      have key : ∀ (fs' hs' : List (String × Json)),
          fs'.map Prod.fst = hs'.map Prod.fst →
          List.Forall₂ JEqv (fs'.map Prod.snd) (hs'.map Prod.snd) →
          (∀ e ∈ fs', Wf e.2) → (∀ e ∈ hs', Wf e.2) → (∀ e ∈ fs', sizeOf e.2 ≤ n) →
          fs'.map (fun e => (e.1, canon e.2)) = hs'.map (fun e => (e.1, canon e.2)) := by
        intro fs'
        induction fs' with
        | nil =>
          intro hs' hk _ _ _ _
          cases hs' with
          | nil => rfl
          | cons y ys => simp at hk
        | cons x xs ihf =>
          intro hs' hk hv hwx hwy hsx
          cases hs' with
          | nil => simp at hk
          | cons y ys =>
            simp only [List.map_cons] at hk hv ⊢
            injection hk with hk1 hk2
            cases hv with
            | cons h1 h2 =>
              rw [hk1,
                ih x.2 y.2 (hsx x (List.mem_cons_self x xs)) (hwx x (List.mem_cons_self x xs))
                  (hwy y (List.mem_cons_self y ys)) h1,
                ihf ys hk2 h2 (fun u hu => hwx u (List.mem_cons_of_mem x hu))
                  (fun u hu => hwy u (List.mem_cons_of_mem y hu))
                  (fun u hu => hsx u (List.mem_cons_of_mem x hu))]
      have hmap : fs.map (fun e => (e.1, canon e.2)) = hs.map (fun e => (e.1, canon e.2)) :=
        key fs hs hkeys hvals hwfa hwhs hsfs
      have hpermF : (fs.map (fun e => (e.1, canon e.2))).Perm
          (gs.map (fun e => (e.1, canon e.2))) := by
        rw [hmap]
        exact hperm.map _
      have hkeysF : ∀ L : List (String × Json),
          ((L.map (fun e => (e.1, canon e.2))).map Prod.fst) = L.map Prod.fst := by
        intro L
        rw [List.map_map]
        rfl
      have hna' : ((fs.map (fun e => (e.1, canon e.2))).map Prod.fst).Nodup := by
        rw [hkeysF]
        exact hna
      have hnb' : ((gs.map (fun e => (e.1, canon e.2))).map Prod.fst).Nodup := by
        rw [hkeysF]
        exact hnb
      have hs1 : List.Sorted keyLt
          (List.insertionSort keyLe (fs.map (fun e => (e.1, canon e.2)))) :=
        sorted_keyLt_of_sorted_keyLe (List.sorted_insertionSort keyLe _)
          (nodup_keys_insertionSort _ hna')
      have hs2 : List.Sorted keyLt
          (List.insertionSort keyLe (gs.map (fun e => (e.1, canon e.2)))) :=
        sorted_keyLt_of_sorted_keyLe (List.sorted_insertionSort keyLe _)
          (nodup_keys_insertionSort _ hnb')
      have hpermSorted :
          (List.insertionSort keyLe (fs.map (fun e => (e.1, canon e.2)))).Perm
            (List.insertionSort keyLe (gs.map (fun e => (e.1, canon e.2)))) :=
        ((List.perm_insertionSort keyLe _).trans hpermF).trans
          (List.perm_insertionSort keyLe _).symm
      rw [List.eq_of_perm_of_sorted hpermSorted hs1 hs2]

/-- Canonicalization maps value-equal well-formed JSON trees to the same
tree. -/
theorem canon_eq_of_jeqv (a b : Json) (hwa : Wf a) (hwb : Wf b) (h : JEqv a b) :
    canon a = canon b :=
  canon_eq_of_jeqv_fuel (sizeOf a) a b (le_refl _) hwa hwb h

/-! ## The claims -/

/-- C1: the claim says running a job of kind `index_rebuild` (POST
/v1/jobs/{name}:run) executes the registered index-rebuild job — replay
the canonical log, skip known ids, insert the rest, report counts — and
does not fail as an unsupported kind.  The dispatcher `_execute_job` has
no `index_rebuild` branch: it raises `ValueError("Unsupported job kind:
index_rebuild")`, and the run is recorded with status "failed" carrying
that message. -/
theorem c1_index_rebuild_job_fails_as_unsupported :
    execute_job_kind "index_rebuild" = .error "Unsupported job kind: index_rebuild" ∧
    job_run_status "index_rebuild" = ("failed", some "Unsupported job kind: index_rebuild") :=
  ⟨rfl, rfl⟩

/-- C3 counterexample: a valid draft of type `note` (not `chat.message`),
ingested with dedupe requested, is recorded as `failed` with "Unable to
compute dedupe_key" and written to neither the canonical log nor the
index — the claim says only chat messages can fail this way and any other
type proceeds with a null dedupe key. -/
theorem c3_counterexample_note_draft_failed :
    validate_draft note_draft = none ∧
    note_draft.get "type" = some (.str "note") ∧
    ingest_drafts env0 [note_draft] true false emptyStore =
      { store := emptyStore, new := 0, skipped := 0, failed := 1,
        results := [.obj [("status", .str "failed"),
          ("error", .str "Unable to compute dedupe_key")]],
        errors := ["Unable to compute dedupe_key"], ids := [], aborted := none } :=
  ⟨rfl, rfl, rfl⟩

/-- C5 counterexample: the one line a successful ingest appends to the
canonical log serializes the event object without any `created_at` key —
the claim says each logged line carries all event attributes including
`created_at`. -/
theorem c5_counterexample_log_line_lacks_created_at :
    ((ingest_drafts env0 [chat_draft_0] true false emptyStore).store.log.map
      (fun e => e.hasKey "created_at")) = [false] := by decide

/-- C6 counterexample: a view stored with order `asc`, queried with
request filters that provide order `desc`: the merged query's order is the
stored `asc`, not the request's `desc` — the claim says the request's
order wins when provided. -/
theorem c6_counterexample_request_order_ignored :
    (view_query_params
      (.obj [("kind", .str "events_query"), ("filters", .obj []), ("order", .str "asc")])
      (.obj [("order", .str "desc")]) 50).order = .str "asc" ∧
    (view_query_params
      (.obj [("kind", .str "events_query"), ("filters", .obj []), ("order", .str "asc")])
      (.obj [("order", .str "desc")]) 50).order ≠ .str "desc" :=
  ⟨rfl, by decide⟩

/-- C7 counterexample: the daily digest for day 2026-01-21 (timezone
offset +09:00) queries with `before = 2026-01-22T00:00:00+09:00` compared
inclusively (`ts <= before`), so an event timestamped exactly at day+1
00:00 IS selected — the claim says the window is half-open and that event
is not included. -/
theorem c7_counterexample_upper_bound_included :
    (run_daily_digest_params timeline_view_query "2026-01-21" "+09:00").before =
      .str "2026-01-22T00:00:00+09:00" ∧
    boundary_row.ts = "2026-01-22T00:00:00+09:00" ∧
    select_rows ftsNoRows {} (run_daily_digest_params timeline_view_query "2026-01-21" "+09:00")
      [boundary_row] = [boundary_row] := by
  refine ⟨by decide, rfl, by decide⟩

theorem ts_bound_ne_empty (a b : String) : a ++ "T00:00:00" ++ b ≠ "" := by
  intro h
  have hl := congrArg String.length h
  have h9 : ("T00:00:00" : String).length = 9 := rfl
  simp [String.length_append, h9] at hl

/-- The params the daily digest hands `_query_events` when the stored view
is the built-in `timeline` (empty filters, desc order): exactly the window
bounds, limit 500. -/
theorem run_daily_digest_params_timeline (day offset : String) :
    run_daily_digest_params timeline_view_query day offset =
      { q := .null, types := .null, tags := .null,
        after := .str (digest_window day offset).1,
        before := .str (digest_window day offset).2,
        limit := 500, format := .str "summary", order := .str "desc" } := by
  have h1 : (digest_window day offset).1 ≠ "" := ts_bound_ne_empty day offset
  have h2 : (digest_window day offset).2 ≠ "" := ts_bound_ne_empty (next_day day) offset
  simp only [run_daily_digest_params, merge_view_filters, timeline_view_query, digest_window] at *
  simp [Json.get, Json.getD, Json.set, Json.truthy, pyTruthy, presentNotNone,
    Json.isObj, h1, h2, List.find?]

/-- Membership in the row set a query returns, when the store is small
enough that LIMIT does not truncate: exactly the rows matching the WHERE
clause. -/
theorem mem_select_rows (fts : String → String → Bool) (cfg : QueryConfig)
    (p : QueryParams) (rows : List EventRow) (hlen : rows.length ≤ p.limit)
    (e : EventRow) :
    e ∈ select_rows fts cfg p rows ↔ e ∈ rows ∧ row_matches fts cfg p e = true := by
  unfold select_rows
  have hfl : (rows.filter (row_matches fts cfg p)).length ≤ p.limit :=
    le_trans (List.length_filter_le _ _) hlen
  by_cases horder : p.order == Json.str "asc"
  · simp only [horder, if_pos]
    rw [List.take_of_length_le (by simpa using hfl)]
    simp [List.mem_filter]
  · simp only [horder, if_neg, Bool.false_eq_true, not_false_iff]
    rw [List.take_of_length_le (by simpa using hfl)]
    simp [List.mem_filter]

/-- C7 amended: the daily digest over the built-in `timeline` view queries
the CLOSED window [day 00:00, day+1 00:00] in the workspace timezone: both
bounds compare inclusively as zoned ISO strings (`ts >= after`,
`ts <= before`), so an event timestamped exactly at day+1 00:00 is
included; the query fetches at most 500 summary rows (limit 500). -/
theorem c7_amended_digest_window_closed (fts : String → String → Bool) (cfg : QueryConfig)
    (rows : List EventRow) (day offset : String)
    (hlen : rows.length ≤ 500) :
    (run_daily_digest_params timeline_view_query day offset).limit = 500 ∧
    (run_daily_digest_params timeline_view_query day offset).after =
      .str (digest_window day offset).1 ∧
    (run_daily_digest_params timeline_view_query day offset).before =
      .str (digest_window day offset).2 ∧
    ∀ e ∈ rows,
      (e ∈ select_rows fts cfg (run_daily_digest_params timeline_view_query day offset) rows ↔
        (strLe (digest_window day offset).1 e.ts = true ∧
         strLe e.ts (digest_window day offset).2 = true)) := by
  have h1 : (digest_window day offset).1 ≠ "" := ts_bound_ne_empty day offset
  have h2 : (digest_window day offset).2 ≠ "" := ts_bound_ne_empty (next_day day) offset
  rw [run_daily_digest_params_timeline]
  refine ⟨rfl, rfl, rfl, ?_⟩
  intro e he
  rw [mem_select_rows fts cfg _ rows (by simpa using hlen) e]
  simp [row_matches, Json.truthy, pyStr, h1, h2, he]

theorem c7_witness :
    (run_daily_digest_params timeline_view_query "2026-01-21" "+09:00").limit = 500 ∧
    (run_daily_digest_params timeline_view_query "2026-01-21" "+09:00").after =
      .str (digest_window "2026-01-21" "+09:00").1 ∧
    (run_daily_digest_params timeline_view_query "2026-01-21" "+09:00").before =
      .str (digest_window "2026-01-21" "+09:00").2 ∧
    ∀ e ∈ [boundary_row],
      (e ∈ select_rows ftsNoRows {}
          (run_daily_digest_params timeline_view_query "2026-01-21" "+09:00") [boundary_row] ↔
        (strLe (digest_window "2026-01-21" "+09:00").1 e.ts = true ∧
         strLe e.ts (digest_window "2026-01-21" "+09:00").2 = true)) :=
  c7_amended_digest_window_closed ftsNoRows {} [boundary_row] "2026-01-21" "+09:00" (by decide)

/-- C6 (amended): for every stored view filter set S and request filter
set R — encoded as the JSON objects the daemon stores and receives, with
the nonempty lists and strings real filters carry — the merged query's
filters satisfy the spec's field rules: `type` is the intersection (in
stored order) when both are set, otherwise whichever is set; `tag` is the
ordered union de-duplicated by first occurrence when both are set,
otherwise whichever is set; `after` is the max and `before` the min when
both are set, otherwise whichever is set.  The merged `order`, however, is
always the STORED view's order (default "desc"): `_merge_view_filters`
only replaces `filters`, and `_handle_view_query` reads `order` from the
merged stored query, so nothing of the request reaches it. -/
theorem c6_amended_view_merge_fields (tyS tgS tyR tgR : Option (List String))
    (afS bfS afR bfR ordS : Option String) (limit : Nat)
    (h1 : ∀ l, tyS = some l → l ≠ []) (h2 : ∀ l, tyR = some l → l ≠ [])
    (h3 : ∀ l, tgS = some l → l ≠ []) (h4 : ∀ l, tgR = some l → l ≠ [])
    (h5 : ∀ s, afS = some s → s ≠ "") (h6 : ∀ s, afR = some s → s ≠ "")
    (h7 : ∀ s, bfS = some s → s ≠ "") (h8 : ∀ s, bfR = some s → s ≠ "") :
    ((merge_view_filters (encView tyS tgS afS bfS ordS)
        (encFilters tyR tgR afR bfR)).getD "filters" (Json.obj [])).get "type" =
      (spec_merge_type tyS tyR).map encStrList ∧
    ((merge_view_filters (encView tyS tgS afS bfS ordS)
        (encFilters tyR tgR afR bfR)).getD "filters" (Json.obj [])).get "tag" =
      (spec_merge_tag tgS tgR).map encStrList ∧
    ((merge_view_filters (encView tyS tgS afS bfS ordS)
        (encFilters tyR tgR afR bfR)).getD "filters" (Json.obj [])).get "after" =
      (spec_merge_after afS afR).map Json.str ∧
    ((merge_view_filters (encView tyS tgS afS bfS ordS)
        (encFilters tyR tgR afR bfR)).getD "filters" (Json.obj [])).get "before" =
      (spec_merge_before bfS bfR).map Json.str ∧
    (view_query_params (encView tyS tgS afS bfS ordS) (encFilters tyR tgR afR bfR)
        limit).order = Json.str (ordS.getD "desc") :=
  ⟨merged_enc_get_type tyS tgS tyR tgR afS bfS afR bfR ordS h1 h2,
   merged_enc_get_tag tyS tgS tyR tgR afS bfS afR bfR ordS h3 h4,
   merged_enc_get_after tyS tgS tyR tgR afS bfS afR bfR ordS h5 h6,
   merged_enc_get_before tyS tgS tyR tgR afS bfS afR bfR ordS h7 h8,
   merged_enc_order tyS tgS afS bfS ordS (encFilters tyR tgR afR bfR)⟩

theorem c6_amended_witness :
    ((merge_view_filters
        (encView (some ["chat.message", "note"]) (some ["alpha", "beta"])
          (some "2026-01-01") (some "2026-01-30") (some "asc"))
        (encFilters (some ["note", "artifact"]) (some ["beta", "gamma"])
          (some "2026-01-02") (some "2026-01-20"))).getD "filters" (Json.obj [])).get "type" =
      (spec_merge_type (some ["chat.message", "note"]) (some ["note", "artifact"])).map
        encStrList ∧
    ((merge_view_filters
        (encView (some ["chat.message", "note"]) (some ["alpha", "beta"])
          (some "2026-01-01") (some "2026-01-30") (some "asc"))
        (encFilters (some ["note", "artifact"]) (some ["beta", "gamma"])
          (some "2026-01-02") (some "2026-01-20"))).getD "filters" (Json.obj [])).get "tag" =
      (spec_merge_tag (some ["alpha", "beta"]) (some ["beta", "gamma"])).map encStrList ∧
    ((merge_view_filters
        (encView (some ["chat.message", "note"]) (some ["alpha", "beta"])
          (some "2026-01-01") (some "2026-01-30") (some "asc"))
        (encFilters (some ["note", "artifact"]) (some ["beta", "gamma"])
          (some "2026-01-02") (some "2026-01-20"))).getD "filters" (Json.obj [])).get "after" =
      (spec_merge_after (some "2026-01-01") (some "2026-01-02")).map Json.str ∧
    ((merge_view_filters
        (encView (some ["chat.message", "note"]) (some ["alpha", "beta"])
          (some "2026-01-01") (some "2026-01-30") (some "asc"))
        (encFilters (some ["note", "artifact"]) (some ["beta", "gamma"])
          (some "2026-01-02") (some "2026-01-20"))).getD "filters" (Json.obj [])).get "before" =
      (spec_merge_before (some "2026-01-30") (some "2026-01-20")).map Json.str ∧
    (view_query_params
        (encView (some ["chat.message", "note"]) (some ["alpha", "beta"])
          (some "2026-01-01") (some "2026-01-30") (some "asc"))
        (encFilters (some ["note", "artifact"]) (some ["beta", "gamma"])
          (some "2026-01-02") (some "2026-01-20")) 50).order =
      Json.str ((some "asc").getD "desc") :=
  c6_amended_view_merge_fields (some ["chat.message", "note"]) (some ["alpha", "beta"])
    (some ["note", "artifact"]) (some ["beta", "gamma"])
    (some "2026-01-01") (some "2026-01-30") (some "2026-01-02") (some "2026-01-20")
    (some "asc") 50
    (fun l hl => by cases hl; decide) (fun l hl => by cases hl; decide)
    (fun l hl => by cases hl; decide) (fun l hl => by cases hl; decide)
    (fun s hs => by cases hs; decide) (fun s hs => by cases hs; decide)
    (fun s hs => by cases hs; decide) (fun s hs => by cases hs; decide)

/-- C8: `event_hash` is the hex SHA-256 of the UTF-8 bytes of the
minimal-separator (`","`/`":"`), recursively-key-sorted, non-ASCII-escaped
serialization of the core (first conjunct, definitional), and consequently
any two cores that are equal as JSON values — objects compared as
key-value maps regardless of key insertion order, at every depth, with the
pairwise-distinct keys decoded JSON always has — produce identical hash
dicts: value-equal trees have the same canonical form, hence the same
serialization and the same digest. -/
theorem c8_event_hash_respects_value_eq (a b : Json) (hwa : Wf a) (hwb : Wf b)
    (h : JEqv a b) :
    event_hash a = .obj [("algo", .str "sha256"),
      ("value", .str (sha256_hex (utf8 (serializeWith "," ":" (canon a)))))] ∧
    event_hash a = event_hash b := by
  refine ⟨rfl, ?_⟩
  unfold event_hash dumps_sorted
  rw [canon_eq_of_jeqv a b hwa hwb h]

theorem c8_witness :
    event_hash (.obj [("b", .num 1), ("a", .str "x")]) = .obj [("algo", .str "sha256"),
      ("value", .str (sha256_hex (utf8 (serializeWith "," ":"
        (canon (.obj [("b", .num 1), ("a", .str "x")]))))))] ∧
    event_hash (.obj [("b", .num 1), ("a", .str "x")]) =
      event_hash (.obj [("a", .str "x"), ("b", .num 1)]) :=
  c8_event_hash_respects_value_eq
    (.obj [("b", .num 1), ("a", .str "x")])
    (.obj [("a", .str "x"), ("b", .num 1)])
    (Wf.obj (by decide) (by
      intro e he
      simp only [List.mem_cons, List.not_mem_nil, or_false] at he
      rcases he with rfl | rfl
      · exact Wf.num 1
      · exact Wf.str "x"))
    (Wf.obj (by decide) (by
      intro e he
      simp only [List.mem_cons, List.not_mem_nil, or_false] at he
      rcases he with rfl | rfl
      · exact Wf.str "x"
      · exact Wf.num 1))
    (JEqv.obj rfl
      (List.Forall₂.cons (JEqv.num 1) (List.Forall₂.cons (JEqv.str "x") List.Forall₂.nil))
      (List.Perm.swap ("a", Json.str "x") ("b", Json.num 1) []))

/-- C9: with FTS enabled, when the `events_fts MATCH` query returns no row
for the query 调用图 (the unicode61 tokenizer indexes the whole CJK run 
先做调用图 as one token, which the query token does not equal),
`_query_events` returns the empty FTS result: there is no second LIKE
query, although a `text LIKE %调用图%` search over the same store matches
the event — the fallback the spec describes (and the `query 调用图`
test expects) does not exist in `_local_search`/`_query_events`. -/
theorem c9_fts_empty_result_not_replaced_by_like :
    query_events ftsNoRows {} (local_search_params "调用图" 50 "summary") zh_store = [] ∧
    strContains zh_row.text "调用图" = true ∧
    query_events ftsNoRows { fts_enabled := false }
      (local_search_params "调用图" 50 "summary") zh_store =
      [summary_item { fts_enabled := false } zh_store zh_row] := by
  refine ⟨by decide, by decide, by decide⟩

/-- C2: when the canonical-log append of a draft succeeds but its index
transaction raises a sqlite error, `_ingest_drafts` does NOT record a
failed result and does NOT continue with the rest of the batch: the
`except DatabaseError` at daemon.py line 757 never matches (the daemon's
`_insert_event` raises raw `sqlite3` errors, unlike the CLI's wrapped
copy), so the exception escapes the loop — the already appended line stays
in the log (that much of the claim holds), but the batch aborts with no
`failed` entry and the remaining drafts unprocessed. -/
theorem c2_sqlite_error_aborts_batch (env : IngestEnv) (d other : Json) (st : Store)
    (m : String)
    (hv : validate_draft d = none)
    (hk : pyTruthyStr (dedupe_key_from_draft d) = true)
    (hfresh : st.dedupe.find? (fun r => some r.dedupe_key == dedupe_key_from_draft d) = none)
    (happend : ∀ ev, env.appendOsError ev = none)
    (hdb : ∀ ev, env.sqliteError ev = some m) :
    ingest_drafts env [d, other] true false st =
      { store := { st with
          log := st.log ++ [built_event d (env.ulids 0) (dedupe_key_from_draft d)] },
        new := 0, skipped := 0, failed := 0, results := [], errors := [], ids := [],
        aborted := some (.sqlite m) } := by
  simp only [ingest_drafts, ingest_loop, hv, hk, hfresh, append_event, insert_event,
    happend, hdb, built_event]
  simp

theorem c2_witness :
    ingest_drafts envDbFault [chat_draft_0, chat_draft_1] true false emptyStore =
      { store := { emptyStore with
          log := emptyStore.log ++
            [built_event chat_draft_0 (envDbFault.ulids 0) (dedupe_key_from_draft chat_draft_0)] },
        new := 0, skipped := 0, failed := 0, results := [], errors := [], ids := [],
        aborted := some (.sqlite "disk I/O error") } :=
  c2_sqlite_error_aborts_batch envDbFault chat_draft_0 chat_draft_1 emptyStore
    "disk I/O error" rfl (by decide) rfl (fun _ => rfl) (fun _ => rfl)

/-- C10: `_handle_batch` defaults `dedupe` to true when the options object
omits it, and then any valid draft whose dedupe key cannot be derived — in
particular every draft whose type is not `chat.message` — is recorded
`{status: "failed", error: "Unable to compute dedupe_key"}` and written to
neither the canonical log nor the index; with `options.dedupe = false` the
same draft is inserted and its line appended. -/
theorem c10_default_dedupe_fails_keyless_drafts (env : IngestEnv) (options d : Json)
    (st : Store)
    (hopts : options.get "dedupe" = none)
    (hv : validate_draft d = none)
    (hk : dedupe_key_from_draft d = none)
    (happend : ∀ ev, env.appendOsError ev = none)
    (hdb : ∀ ev, env.sqliteError ev = none) :
    batch_dedupe options = true ∧
    handle_batch env [d] options st =
      { store := st, new := 0, skipped := 0, failed := 1,
        results := [.obj [("status", .str "failed"),
          ("error", .str "Unable to compute dedupe_key")]],
        errors := ["Unable to compute dedupe_key"], ids := [], aborted := none } ∧
    (handle_batch env [d] (.obj [("dedupe", .bool false)]) st).new = 1 ∧
    (handle_batch env [d] (.obj [("dedupe", .bool false)]) st).failed = 0 ∧
    (handle_batch env [d] (.obj [("dedupe", .bool false)]) st).store.log =
      st.log ++ [built_event d (env.ulids 0) none] := by
  have hflag : batch_dedupe options = true := by
    simp [batch_dedupe, hopts]
  refine ⟨hflag, ?_, ?_, ?_, ?_⟩
  · simp only [handle_batch, hflag, ingest_drafts, ingest_loop, hv, hk]
    simp [pyTruthyStr]
  all_goals
    simp only [handle_batch, batch_dedupe, Json.get, ingest_drafts, ingest_loop, hv, hk,
      append_event, insert_event, happend, hdb]
    simp [Json.truthy, pyTruthyStr]

theorem c10_witness :
    batch_dedupe (.obj []) = true ∧
    handle_batch env0 [note_draft] (.obj []) emptyStore =
      { store := emptyStore, new := 0, skipped := 0, failed := 1,
        results := [.obj [("status", .str "failed"),
          ("error", .str "Unable to compute dedupe_key")]],
        errors := ["Unable to compute dedupe_key"], ids := [], aborted := none } ∧
    (handle_batch env0 [note_draft] (.obj [("dedupe", .bool false)]) emptyStore).new = 1 ∧
    (handle_batch env0 [note_draft] (.obj [("dedupe", .bool false)]) emptyStore).failed = 0 ∧
    (handle_batch env0 [note_draft] (.obj [("dedupe", .bool false)]) emptyStore).store.log =
      emptyStore.log ++ [built_event note_draft (env0.ulids 0) none] :=
  c10_default_dedupe_fails_keyless_drafts env0 (.obj []) note_draft emptyStore
    rfl rfl rfl (fun _ => rfl) (fun _ => rfl)

/-- C3 amended: with dedupe requested, a valid draft whose dedupe key
cannot be computed is recorded failed whatever its type (non-chat types
never have a computable key); only when the caller disables dedupe does a
keyless draft proceed — hashed, appended to the log and inserted into the
index with a null `dedupe_key` and no `dedupe` row. -/
theorem c3_amended_keyless_fails_unless_dedupe_off (env : IngestEnv) (d : Json) (st : Store)
    (hv : validate_draft d = none)
    (hk : dedupe_key_from_draft d = none)
    (happend : ∀ ev, env.appendOsError ev = none)
    (hdb : ∀ ev, env.sqliteError ev = none) :
    ingest_drafts env [d] true false st =
      { store := st, new := 0, skipped := 0, failed := 1,
        results := [.obj [("status", .str "failed"),
          ("error", .str "Unable to compute dedupe_key")]],
        errors := ["Unable to compute dedupe_key"], ids := [], aborted := none } ∧
    (ingest_drafts env [d] false false st).new = 1 ∧
    (ingest_drafts env [d] false false st).failed = 0 ∧
    (built_event d (env.ulids 0) none).get "dedupe_key" = some .null ∧
    (ingest_drafts env [d] false false st).store.log =
      st.log ++ [built_event d (env.ulids 0) none] ∧
    (ingest_drafts env [d] false false st).store.events.map (fun r => r.dedupe_key) =
      st.events.map (fun r => r.dedupe_key) ++ [none] ∧
    (ingest_drafts env [d] false false st).store.dedupe = st.dedupe := by
  refine ⟨?_, ?_, ?_, ?_, ?_, ?_, ?_⟩
  · simp only [ingest_drafts, ingest_loop, hv, hk]
    simp [pyTruthyStr]
  case refine_4 =>
    simp [built_event, event_core_entries, Json.get, keyJson, List.find?]
  all_goals
    simp only [ingest_drafts, ingest_loop, hv, hk, append_event, insert_event,
      happend, hdb, built_event, Json.get, keyJson]
    simp [pyTruthyStr]

/-- C5 amended: every line a successful ingest appends to the canonical
log is the single-JSON-object serialization of the complete event followed
by a newline, and that object carries exactly the event attributes
`schema_version, ts, type, source, refs, tags, text, payload` plus `id`,
`hash` and `dedupe_key` — but not `created_at`, which is recorded only on
the index row (as the ingest call's wall-clock `iso_now`). -/
theorem c5_amended_log_line_is_event_without_created_at (env : IngestEnv) (d : Json)
    (st : Store)
    (hv : validate_draft d = none)
    (hk : pyTruthyStr (dedupe_key_from_draft d) = true)
    (hfresh : st.dedupe.find? (fun r => some r.dedupe_key == dedupe_key_from_draft d) = none)
    (happend : ∀ ev, env.appendOsError ev = none)
    (hdb : ∀ ev, env.sqliteError ev = none) :
    (ingest_drafts env [d] true false st).store.log =
      st.log ++ [built_event d (env.ulids 0) (dedupe_key_from_draft d)] ∧
    (built_event d (env.ulids 0) (dedupe_key_from_draft d)).keys =
      ["schema_version", "ts", "type", "source", "refs", "tags", "text",
       "payload", "id", "hash", "dedupe_key"] ∧
    (built_event d (env.ulids 0) (dedupe_key_from_draft d)).hasKey "created_at" = false ∧
    logText (ingest_drafts env [d] true false st).store =
      logText st ++ (dumps_default (built_event d (env.ulids 0) (dedupe_key_from_draft d)) ++ "\n") ∧
    (ingest_drafts env [d] true false st).store.events.map (fun r => r.created_at) =
      st.events.map (fun r => r.created_at) ++ [env.now] := by
  obtain ⟨k, hkk, hkne⟩ : ∃ k, dedupe_key_from_draft d = some k ∧ k ≠ "" := by
    cases hdk : dedupe_key_from_draft d with
    | none => rw [hdk] at hk; simp [pyTruthyStr] at hk
    | some k =>
      refine ⟨k, rfl, ?_⟩
      rw [hdk] at hk
      simpa [pyTruthyStr] using hk
  rw [hkk] at hfresh
  have hany : st.dedupe.any (fun r => r.dedupe_key == k) = false := by
    rw [List.any_eq_false]
    intro r hr
    have := List.find?_eq_none.mp hfresh r hr
    simpa using this
  have hlog : (ingest_drafts env [d] true false st).store.log =
      st.log ++ [built_event d (env.ulids 0) (dedupe_key_from_draft d)] := by
    simp only [ingest_drafts, ingest_loop, hv, hkk, append_event, insert_event,
      happend, hdb, hfresh, hany, pyTruthyStr]
    simp [hkne]
  refine ⟨hlog, ?_, ?_, ?_, ?_⟩
  · simp [built_event, event_core_entries, Json.keys]
  · simp [built_event, event_core_entries, Json.hasKey, Json.get, List.find?]
  · simp [logText, hlog, String.join, List.foldl_append]
  · simp only [ingest_drafts, ingest_loop, hv, hkk, append_event, insert_event,
      happend, hdb, hfresh, hany, pyTruthyStr]
    simp [hkne]

theorem c5_witness :
    (ingest_drafts env0 [chat_draft_0] true false emptyStore).store.log =
      emptyStore.log ++ [built_event chat_draft_0 (env0.ulids 0) (dedupe_key_from_draft chat_draft_0)] ∧
    (built_event chat_draft_0 (env0.ulids 0) (dedupe_key_from_draft chat_draft_0)).keys =
      ["schema_version", "ts", "type", "source", "refs", "tags", "text",
       "payload", "id", "hash", "dedupe_key"] ∧
    (built_event chat_draft_0 (env0.ulids 0)
      (dedupe_key_from_draft chat_draft_0)).hasKey "created_at" = false ∧
    logText (ingest_drafts env0 [chat_draft_0] true false emptyStore).store =
      logText emptyStore ++
        (dumps_default (built_event chat_draft_0 (env0.ulids 0)
          (dedupe_key_from_draft chat_draft_0)) ++ "\n") ∧
    (ingest_drafts env0 [chat_draft_0] true false emptyStore).store.events.map
      (fun r => r.created_at) =
      emptyStore.events.map (fun r => r.created_at) ++ [env0.now] :=
  c5_amended_log_line_is_event_without_created_at env0 chat_draft_0 emptyStore
    rfl (by decide) rfl (fun _ => rfl) (fun _ => rfl)

/-- C4: ingesting a set of valid chat-message drafts with pairwise
distinct computable dedupe keys (none seen before) into a workspace yields
(new, skipped, failed) = (N, 0, 0); ingesting the identical set again —
under any environment, e.g. a later clock and fresh ULIDs — yields
(0, N, 0) and leaves the store, in particular the canonical log,
exactly unchanged; the first call grew the log by N lines. -/
theorem c4_dedupe_idempotent (env1 env2 : IngestEnv) (drafts : List Json) (st0 : Store)
    (hv : ∀ d ∈ drafts, validate_draft d = none)
    (hks : ∀ d ∈ drafts, (dedupe_key_from_draft d).isSome)
    (hnd : (drafts.map dedupe_key_from_draft).Nodup)
    (hfr : ∀ d ∈ drafts, ∀ r ∈ st0.dedupe, some r.dedupe_key ≠ dedupe_key_from_draft d)
    (ha1 : ∀ ev, env1.appendOsError ev = none) (hd1 : ∀ ev, env1.sqliteError ev = none) :
    (ingest_drafts env1 drafts true false st0).new = drafts.length ∧
    (ingest_drafts env1 drafts true false st0).skipped = 0 ∧
    (ingest_drafts env1 drafts true false st0).failed = 0 ∧
    (ingest_drafts env1 drafts true false st0).aborted = none ∧
    (ingest_drafts env2 drafts true false
      (ingest_drafts env1 drafts true false st0).store).new = 0 ∧
    (ingest_drafts env2 drafts true false
      (ingest_drafts env1 drafts true false st0).store).skipped = drafts.length ∧
    (ingest_drafts env2 drafts true false
      (ingest_drafts env1 drafts true false st0).store).failed = 0 ∧
    (ingest_drafts env2 drafts true false
      (ingest_drafts env1 drafts true false st0).store).store =
      (ingest_drafts env1 drafts true false st0).store ∧
    (ingest_drafts env1 drafts true false st0).store.log.length =
      st0.log.length + drafts.length := by
  obtain ⟨f1, f2, f3, f4, f5, f6⟩ :=
    ingest_loop_fresh env1 ha1 hd1 drafts st0 0 hv hks hnd hfr
  have hdup : ∀ d ∈ drafts, ∀ k, dedupe_key_from_draft d = some k →
      ∃ r ∈ (ingest_loop env1 true false drafts st0 0).store.dedupe, r.dedupe_key = k := by
    intro d hd k hkk
    have hmem : some k ∈
        (ingest_loop env1 true false drafts st0 0).store.dedupe.map
          (fun r => some r.dedupe_key) := by
      rw [f6]
      apply List.mem_append_right
      rw [← hkk]
      exact List.mem_map_of_mem dedupe_key_from_draft hd
    obtain ⟨r, hr, hrk⟩ := List.mem_map.mp hmem
    exact ⟨r, hr, by simpa using hrk⟩
  obtain ⟨g1, g2, g3, g4, g5⟩ := ingest_loop_all_dup env2 drafts
    (ingest_loop env1 true false drafts st0 0).store 0 hv hks hdup
  exact ⟨f1, f2, f3, f4, g2, g3, g4, g1, f5⟩

theorem c4_witness :
    (ingest_drafts env0 [chat_draft_0, chat_draft_1] true false emptyStore).new =
      [chat_draft_0, chat_draft_1].length ∧
    (ingest_drafts env0 [chat_draft_0, chat_draft_1] true false emptyStore).skipped = 0 ∧
    (ingest_drafts env0 [chat_draft_0, chat_draft_1] true false emptyStore).failed = 0 ∧
    (ingest_drafts env0 [chat_draft_0, chat_draft_1] true false emptyStore).aborted = none ∧
    (ingest_drafts env0 [chat_draft_0, chat_draft_1] true false
      (ingest_drafts env0 [chat_draft_0, chat_draft_1] true false emptyStore).store).new = 0 ∧
    (ingest_drafts env0 [chat_draft_0, chat_draft_1] true false
      (ingest_drafts env0 [chat_draft_0, chat_draft_1] true false emptyStore).store).skipped =
      [chat_draft_0, chat_draft_1].length ∧
    (ingest_drafts env0 [chat_draft_0, chat_draft_1] true false
      (ingest_drafts env0 [chat_draft_0, chat_draft_1] true false emptyStore).store).failed = 0 ∧
    (ingest_drafts env0 [chat_draft_0, chat_draft_1] true false
      (ingest_drafts env0 [chat_draft_0, chat_draft_1] true false emptyStore).store).store =
      (ingest_drafts env0 [chat_draft_0, chat_draft_1] true false emptyStore).store ∧
    (ingest_drafts env0 [chat_draft_0, chat_draft_1] true false emptyStore).store.log.length =
      emptyStore.log.length + [chat_draft_0, chat_draft_1].length :=
  c4_dedupe_idempotent env0 env0 [chat_draft_0, chat_draft_1] emptyStore
    (by decide) (by decide) (by decide) (by decide)
    (fun _ => rfl) (fun _ => rfl)

theorem c3_witness :
    ingest_drafts env0 [note_draft] true false emptyStore =
      { store := emptyStore, new := 0, skipped := 0, failed := 1,
        results := [.obj [("status", .str "failed"),
          ("error", .str "Unable to compute dedupe_key")]],
        errors := ["Unable to compute dedupe_key"], ids := [], aborted := none } ∧
    (ingest_drafts env0 [note_draft] false false emptyStore).new = 1 ∧
    (ingest_drafts env0 [note_draft] false false emptyStore).failed = 0 ∧
    (built_event note_draft (env0.ulids 0) none).get "dedupe_key" = some .null ∧
    (ingest_drafts env0 [note_draft] false false emptyStore).store.log =
      emptyStore.log ++ [built_event note_draft (env0.ulids 0) none] ∧
    (ingest_drafts env0 [note_draft] false false emptyStore).store.events.map
      (fun r => r.dedupe_key) =
      emptyStore.events.map (fun r => r.dedupe_key) ++ [none] ∧
    (ingest_drafts env0 [note_draft] false false emptyStore).store.dedupe =
      emptyStore.dedupe :=
  c3_amended_keyless_fails_unless_dedupe_off env0 note_draft emptyStore
    rfl rfl (fun _ => rfl) (fun _ => rfl)

end Ops

